import Mathlib

/-! # Stub processing of the TMTT track finder (`TMTrackFinder/src/Stub.cc`)

A shallow embedding of the per-stub pipeline of `Stub.cc`: the Hough
q/Pt bin-range calculation, the front-end acceptance filter, the reduced layer
identifier and the digitisation state machine.

Numeric conventions of the embedding.
* A `float` or `double` value is the rational it denotes.  In
  `Stub::calcQoverPtrange` and `Stub::setFrontend` every arithmetic operation is
  rounded to nearest, ties to even, with a significand of 24 bits (`toFloat`) or
  53 bits (`toDouble`), in the precision the C++ expression has.  The exponent
  range is not modelled (no overflow, underflow or NaN); the quotient by a zero
  conversion factor in `Stub::setFrontend` is infinite.  The arithmetic of the
  constructor, which no statement below depends on, is exact.
* `int` is `Int` and `unsigned int` is `Nat`.  The conversion of a `float` to
  `int` preserves values in `[-2^31, 2^31)` and gives `-2^31` outside that range,
  as the conversion instruction of x86-64 does (`floatToInt`); the configured
  bin count is taken to fit an `int`.  The cast `(unsigned int) x` is
  `Int.toNat x`, value preserving for `0 ≤ x`.
* `Settings.h`, `Stub.h` and `DigitalStub.h` are not among the sources.  The
  configuration is the record `Settings`; the inline accessors of `Stub.h`
  and the member functions of `DigitalStub` are parameters (`StubAccessors`,
  `DigitalStubOps`).
-/

namespace TMTT

/-- Configuration values read through `settings_->...()` in `Stub.cc`. -/
structure Settings where
  houghNbinsPt : Nat
  houghMinPt : ℚ
  enableDigitize : Bool
  firmwareType : Nat
  killLowPtStubs : Bool
  maxStubEta : ℚ
  bendResReduced : Bool
  trackerInnerRadius : ℚ
  trackerOuterRadius : ℚ
  trackerHalfLength : ℚ
deriving DecidableEq

/-! ## Machine arithmetic -/

/-- Rounding of a rational to the nearest integer, ties to the even one. -/
def roundHalfEven (x : ℚ) : ℤ :=
  let f := Int.floor x
  let r := x - (f : ℚ)
  if r < 1 / 2 then f else if 1 / 2 < r then f + 1 else if f % 2 = 0 then f else f + 1

/-- Binary logarithm of a natural number, rounded down, by halving at most
`fuel` times. -/
def log2Fuel : ℕ → ℕ → ℕ
  | 0, _ => 0
  | fuel + 1, n => if 2 ≤ n then log2Fuel fuel (n / 2) + 1 else 0

/-- Binary logarithm of a positive natural number, rounded down. -/
def ilog2 (n : ℕ) : ℕ := log2Fuel n n

/-- The binary exponent `e` of a positive rational `q`: `2^e ≤ q < 2^(e+1)`. -/
def binade (q : ℚ) : ℤ :=
  let d : ℤ := (ilog2 q.num.toNat : ℤ) - (ilog2 q.den : ℤ)
  if (2 : ℚ) ^ d ≤ q then d else d - 1

/-- Rounding of a positive rational to a significand of `p` bits: with
`2^e ≤ q < 2^(e+1)`, the nearest multiple of `2^(e - (p - 1))`, ties to even. -/
def roundPos (p : ℕ) (q : ℚ) : ℚ :=
  let u : ℚ := (2 : ℚ) ^ (binade q - ((p : ℤ) - 1))
  (roundHalfEven (q / u) : ℚ) * u

/-- Rounding to nearest, ties to even, with a significand of `p` bits and an
unbounded exponent. -/
def roundToPrec (p : ℕ) (q : ℚ) : ℚ :=
  if 0 < q then roundPos p q else if q < 0 then -roundPos p (-q) else 0

/-- The `float` nearest to a rational (binary32, 24-bit significand). -/
def toFloat (q : ℚ) : ℚ := roundToPrec 24 q

/-- The `double` nearest to a rational (binary64, 53-bit significand). -/
def toDouble (q : ℚ) : ℚ := roundToPrec 53 q

/-- Conversion of an integral `float` to `int` (the initialisations of lines 127
and 128): the value itself inside the range of `int`, and `-2^31` outside it. -/
def floatToInt (x : Int) : Int :=
  if -2147483648 ≤ x ∧ x < 2147483648 then x else -2147483648

/-! ## `Stub::calcQoverPtrange` -/

/-- Local `const float houghMaxInvPt = 1./settings_->houghMinPt()`: a `double`
quotient stored in a `float`. -/
def houghMaxInvPt (cfg : Settings) : ℚ := toFloat (toDouble (1 / cfg.houghMinPt))

/-- Local `const float qOverPtBinSize = (2. * houghMaxInvPt)/settings_->houghNbinsPt()`:
a `double` product and quotient stored in a `float`. -/
def qOverPtBinSize (cfg : Settings) : ℚ :=
  toFloat (toDouble (toDouble (2 * houghMaxInvPt cfg) / (cfg.houghNbinsPt : ℚ)))

/-- Local `float qOverPtMin = qOverPtOverBend() * (bend() - bendRes())`. -/
def qOverPtMin (k bend bendRes : ℚ) : ℚ := toFloat (k * toFloat (bend - bendRes))

/-- Local `float qOverPtMax = qOverPtOverBend() * (bend() + bendRes())`. -/
def qOverPtMax (k bend bendRes : ℚ) : ℚ := toFloat (k * toFloat (bend + bendRes))

/-- The value `std::floor((q + houghMaxInvPt)/qOverPtBinSize)` of lines 127 and
128, an integral `float`, before its conversion to `int`. -/
def qOverPtFloor (cfg : Settings) (q : ℚ) : Int :=
  Int.floor (toFloat (toFloat (q + houghMaxInvPt cfg) / qOverPtBinSize cfg))

/-- The bin `int(std::floor((q + houghMaxInvPt)/qOverPtBinSize))` of a q/Pt
value, before it is limited to the array (lines 127 and 128). -/
def qOverPtBin (cfg : Settings) (q : ℚ) : Int :=
  floatToInt (qOverPtFloor cfg q)

/-- Value of `min_bin` at line 127, before clamping. -/
def unclampedMinBin (cfg : Settings) (k bend bendRes : ℚ) : Int :=
  qOverPtBin cfg (qOverPtMin k bend bendRes)

/-- Value of `max_bin` at line 128, before clamping. -/
def unclampedMaxBin (cfg : Settings) (k bend bendRes : ℚ) : Int :=
  qOverPtBin cfg (qOverPtMax k bend bendRes)

/-- Local `min_array_bin`. -/
def min_array_bin : Int := 0

/-- Local `max_array_bin = nbinsPt - 1` with `nbinsPt = (int) houghNbinsPt()`. -/
def max_array_bin (cfg : Settings) : Int := (cfg.houghNbinsPt : Int) - 1

/-- Value of `min_bin` after line 130, `min_bin = max(min_bin, min_array_bin)`. -/
def clampedMinBin (cfg : Settings) (k bend bendRes : ℚ) : Int :=
  max (unclampedMinBin cfg k bend bendRes) min_array_bin

/-- Value of `max_bin` after line 131, `max_bin = min(max_bin, max_array_bin)`. -/
def clampedMaxBin (cfg : Settings) (k bend bendRes : ℚ) : Int :=
  min (unclampedMaxBin cfg k bend bendRes) (max_array_bin cfg)

/-- The signed pair `(min_bin, max_bin)` of `Stub::calcQoverPtrange` just before
the casts of lines 139 and 140. -/
def calcQoverPtrangeBins (cfg : Settings) (k bend bendRes : ℚ) : Int × Int :=
  let min_bin := clampedMinBin cfg k bend bendRes
  let max_bin := clampedMaxBin cfg k bend bendRes
  if min_bin > max_bin then (max_array_bin cfg, min_array_bin) else (min_bin, max_bin)

/-- The pair `(min_qOverPt_bin_, max_qOverPt_bin_)` stored by
`Stub::calcQoverPtrange`, as a function of the configuration, the conversion
factor `k = qOverPtOverBend()`, the bend and the bend resolution. -/
def calcQoverPtrange (cfg : Settings) (k bend bendRes : ℚ) : Nat × Nat :=
  let bins := calcQoverPtrangeBins cfg k bend bendRes
  (Int.toNat bins.1, Int.toNat bins.2)

/-- A configuration with the given bin count and minimum Pt, used for concrete
evaluations; the remaining switches are irrelevant to the bin range. -/
def binCfg (n : Nat) (minPt : ℚ) : Settings :=
  { houghNbinsPt := n, houghMinPt := minPt, enableDigitize := true, firmwareType := 0,
    killLowPtStubs := true, maxStubEta := 5 / 2, bendResReduced := false,
    trackerInnerRadius := 20, trackerOuterRadius := 110, trackerHalfLength := 270 }

/-! ## The low-Pt tests of `Stub::setFrontend` -/

/-- Local `const float qOverPtCut = 1./settings_->houghMinPt()` of line 287: a
`double` quotient stored in a `float`. -/
def qOverPtCut (cfg : Settings) : ℚ := toFloat (toDouble (1 / cfg.houghMinPt))

/-- The test `fabs(b) - res > qOverPtCut/k` of lines 289 and 292, in `float`
arithmetic.  For `k = 0` the quotient is `+∞` for a positive cut, `-∞` for a
negative one and a NaN for a zero cut, so the test holds only for a negative
cut. -/
def lowPtCutFails (cut k b res : ℚ) : Prop :=
  if k = 0 then cut < 0 else toFloat (|b| - res) > toFloat (cut / k)

instance (cut k b res : ℚ) : Decidable (lowPtCutFails cut k b res) := by
  unfold lowPtCutFails; exact inferInstance

/-! ## `Stub::layerIdReduced` and the layer encoding of `Stub::setModuleInfo` -/

/-- Encoding of `layerId_` in `Stub::setModuleInfo` (lines 471 to 475): barrel
layers keep their number, endcap disks become `10*iSide + iDisk`. -/
def encodeLayerId (barrel : Bool) (iLayer iSide iDisk : Nat) : Nat :=
  if barrel then iLayer else 10 * iSide + iDisk

/-- `Stub::layerIdReduced` as a function of the member `layerId_`; the thrown
`cms::Exception` is the `error` result. -/
def layerIdReduced (layerId_ : Nat) : Except String Nat :=
  let lay := if layerId_ < 20 then layerId_ else layerId_ - 10
  let lay := if lay = 6 then 11 else lay
  let lay := if lay = 5 then 12 else lay
  let lay := if lay = 4 then 13 else lay
  let lay := if lay = 3 then 15 else lay
  let lay := if lay > 10 then lay - 8 else lay
  if lay < 1 ∨ lay > 7 then Except.error "Stub: Reduced layer ID out of expected range"
  else Except.ok lay

/-- Membership of an encoded layer identifier in the table of
`Stub::setModuleInfo`: 1 to 6 (barrel), 11 to 15 and 21 to 25 (endcaps). -/
def validLayerId (layerId_ : Nat) : Prop :=
  (1 ≤ layerId_ ∧ layerId_ ≤ 6) ∨ (11 ≤ layerId_ ∧ layerId_ ≤ 15) ∨
    (21 ≤ layerId_ ∧ layerId_ ≤ 25)

instance (layerId_ : Nat) : Decidable (validLayerId layerId_) := by
  unfold validLayerId; exact inferInstance

/-! ## The stub record -/

/-- Coordinate and bend data members of `Stub`.  The inline accessors of
`Stub.h` (`bendRes()`, `qOverPtOverBend()`, `eta()`, ...) are functions of these
members; `rhoParameter_` holds the ρ parameter written by `setRhoParameter`. -/
structure StubData where
  phi_ : ℚ
  r_ : ℚ
  z_ : ℚ
  bend_ : ℚ
  bendInFrontend_ : ℚ
  numMergedBend_ : Nat
  dphi_ : ℚ
  rhoParameter_ : ℚ
  dphiOverBend_ : ℚ
  pitchOverSep_ : ℚ
  layerId_ : Nat
deriving DecidableEq

/-- The `Stub` members used by the digitisation state machine, the bin-range
calculation and the front-end filter; `D` is the state of the member
`digitalStub_`. -/
structure Stub (D : Type) extends StubData where
  min_qOverPt_bin_ : Nat
  max_qOverPt_bin_ : Nat
  frontendPass_ : Bool
  stubFailedDataCorrWindow_ : Bool
  digitizedForGPinput_ : Bool
  digitizedForHTinput_ : Bool
  digitalStub_ : D

/-- Inline accessors of `Stub.h` called from `Stub.cc`, as functions of the
data members. -/
structure StubAccessors where
  bendRes : StubData → ℚ
  bendResInFrontend : StubData → ℚ
  qOverPtOverBend : StubData → ℚ
  eta : StubData → ℚ

/-- Member functions of `DigitalStub` called from the digitisation functions
of `Stub.cc`, over an arbitrary state type `D`. -/
structure DigitalStubOps (D : Type) where
  makeGPinput : D → Nat → D
  makeHTinput : D → Nat → D
  iGetOctant : D → Nat → Nat
  iDigi_Octant : D → Nat
  iDigi_PhiSec : D → Nat
  phi : D → ℚ
  r : D → ℚ
  z : D → ℚ
  bend : D → ℚ
  dphi : D → ℚ
  rho : D → ℚ
  orig_phi : D → ℚ
  orig_r : D → ℚ
  orig_z : D → ℚ
  orig_bend : D → ℚ
  orig_dphi : D → ℚ
  orig_rho : D → ℚ

namespace Stub

variable {D : Type}

/-- Modelled from the spec: `setRhoParameter(rho)` is declared in `Stub.h`, which
is not among the sources; it stores the ρ parameter of the stub ("geometric ρ
parameter used by the Hough transform"). -/
def setRhoParameter (rho : ℚ) (s : Stub D) : Stub D := { s with rhoParameter_ := rho }

/-- Modelled from the spec: `rhoParameter()` is declared in `Stub.h`, which is
not among the sources; it reads the stored ρ parameter. -/
def rhoParameter (s : Stub D) : ℚ := s.rhoParameter_

/-- `Stub::calcQoverPtrange` as an update of the stub: the stored bin range is
recomputed from `qOverPtOverBend()`, `bend()` and `bendRes()`. -/
def calcQoverPtrange (cfg : Settings) (acc : StubAccessors) (s : Stub D) : Stub D :=
  let range := TMTT.calcQoverPtrange cfg (acc.qOverPtOverBend s.toStubData) s.bend_
    (acc.bendRes s.toStubData)
  { s with min_qOverPt_bin_ := range.1, max_qOverPt_bin_ := range.2 }

/-- `Stub::digitizeForGPinput(iPhiSec)`. -/
def digitizeForGPinput (cfg : Settings) (ops : DigitalStubOps D) (iPhiSec : Nat)
    (s : Stub D) : Stub D :=
  if cfg.enableDigitize then
    let s :=
      if !(s.digitizedForGPinput_ &&
          ops.iGetOctant s.digitalStub_ iPhiSec == ops.iDigi_Octant s.digitalStub_) then
        let s := { s with digitalStub_ := ops.makeGPinput s.digitalStub_ iPhiSec }
        let s := { s with phi_ := ops.phi s.digitalStub_ }
        let s := { s with r_ := ops.r s.digitalStub_ }
        let s := { s with z_ := ops.z s.digitalStub_ }
        let s := { s with bend_ := ops.bend s.digitalStub_ }
        { s with digitizedForGPinput_ := true }
      else s
    { s with digitizedForHTinput_ := false }
  else s

/-- `Stub::digitizeForHTinput(iPhiSec)`. -/
def digitizeForHTinput (cfg : Settings) (acc : StubAccessors) (ops : DigitalStubOps D)
    (iPhiSec : Nat) (s : Stub D) : Stub D :=
  if cfg.enableDigitize then
    if !(s.digitizedForHTinput_ && iPhiSec == ops.iDigi_PhiSec s.digitalStub_) then
      let s := digitizeForGPinput cfg ops iPhiSec s
      let s := { s with digitalStub_ := ops.makeHTinput s.digitalStub_ iPhiSec }
      let s := { s with phi_ := ops.phi s.digitalStub_ }
      let s :=
        if cfg.firmwareType != 1 then
          let s := { s with dphi_ := ops.dphi s.digitalStub_ }
          let rho := ops.rho s.digitalStub_
          setRhoParameter rho s
        else s
      let s := if cfg.firmwareType != 1 then calcQoverPtrange cfg acc s else s
      { s with digitizedForHTinput_ := true }
    else s
  else s

/-- `Stub::reset_digitize()`. -/
def reset_digitize (cfg : Settings) (acc : StubAccessors) (ops : DigitalStubOps D)
    (s : Stub D) : Stub D :=
  if cfg.enableDigitize then
    if s.digitizedForGPinput_ || s.digitizedForHTinput_ then
      let s := { s with phi_ := ops.orig_phi s.digitalStub_ }
      let s := { s with r_ := ops.orig_r s.digitalStub_ }
      let s := { s with z_ := ops.orig_z s.digitalStub_ }
      let s := { s with bend_ := ops.orig_bend s.digitalStub_ }
      let s :=
        if cfg.firmwareType != 1 then
          let s := { s with dphi_ := ops.orig_dphi s.digitalStub_ }
          let rho := ops.orig_rho s.digitalStub_
          setRhoParameter rho s
        else s
      let s := if cfg.firmwareType != 1 then calcQoverPtrange cfg acc s else s
      let s := { s with digitizedForGPinput_ := false }
      { s with digitizedForHTinput_ := false }
    else s
  else s

/-- `Stub::setFrontend(rejectStub)`. -/
def setFrontend (cfg : Settings) (acc : StubAccessors) (rejectStub : Bool)
    (s : Stub D) : Stub D :=
  let s := { s with frontendPass_ := true }
  let s := { s with stubFailedDataCorrWindow_ := false }
  let s := if |acc.eta s.toStubData| > cfg.maxStubEta then { s with frontendPass_ := false } else s
  let s :=
    if cfg.killLowPtStubs then
      let qOverPtCut : ℚ := TMTT.qOverPtCut cfg
      let s :=
        if lowPtCutFails qOverPtCut (acc.qOverPtOverBend s.toStubData) s.bendInFrontend_
            (acc.bendResInFrontend s.toStubData) then
          { s with frontendPass_ := false }
        else s
      if lowPtCutFails qOverPtCut (acc.qOverPtOverBend s.toStubData) s.bend_
          (acc.bendRes s.toStubData) then
        { s with frontendPass_ := false }
      else s
    else s
  if rejectStub then
    let s := if s.frontendPass_ then { s with stubFailedDataCorrWindow_ := true } else s
    { s with frontendPass_ := false }
  else s

end Stub

/-! ## Sequences of digitisation calls -/

/-- One call of the digitisation interface of `Stub`. -/
inductive DigiCall where
  | forGP (iPhiSec : Nat)
  | forHT (iPhiSec : Nat)
  | reset
deriving DecidableEq

/-- Effect of one call on the stub. -/
def DigiCall.apply {D : Type} (cfg : Settings) (acc : StubAccessors) (ops : DigitalStubOps D)
    (c : DigiCall) (s : Stub D) : Stub D :=
  match c with
  | DigiCall.forGP iPhiSec => Stub.digitizeForGPinput cfg ops iPhiSec s
  | DigiCall.forHT iPhiSec => Stub.digitizeForHTinput cfg acc ops iPhiSec s
  | DigiCall.reset => Stub.reset_digitize cfg acc ops s

/-- Effect of a sequence of calls, first call first. -/
def runCalls {D : Type} (cfg : Settings) (acc : StubAccessors) (ops : DigitalStubOps D)
    (calls : List DigiCall) (s : Stub D) : Stub D :=
  calls.foldl (fun t c => c.apply cfg acc ops t) s

/-- The stub is in the Raw state: neither digitisation flag is set, as after
the constructor (lines 22 and 23). -/
def Stub.isRaw {D : Type} (s : Stub D) : Prop :=
  s.digitizedForGPinput_ = false ∧ s.digitizedForHTinput_ = false

/-- The three states of the digitisation state machine: Raw, digitised for the
GP only, digitised for the GP and the HT. -/
def Stub.digiStateOK {D : Type} (s : Stub D) : Prop :=
  (s.digitizedForGPinput_ = false ∧ s.digitizedForHTinput_ = false) ∨
  (s.digitizedForGPinput_ = true ∧ s.digitizedForHTinput_ = false) ∨
  (s.digitizedForGPinput_ = true ∧ s.digitizedForHTinput_ = true)

/-- Contract of `DigitalStub` used by `Stub::reset_digitize`: the original
values recorded by `DigitalStub::init` are not changed by `makeGPinput` and
`makeHTinput`. -/
def DigitalStubOps.KeepsOriginals {D : Type} (ops : DigitalStubOps D) : Prop :=
  ∀ (d : D) (iPhiSec : Nat),
    (ops.orig_phi (ops.makeGPinput d iPhiSec) = ops.orig_phi d ∧
      ops.orig_r (ops.makeGPinput d iPhiSec) = ops.orig_r d ∧
      ops.orig_z (ops.makeGPinput d iPhiSec) = ops.orig_z d ∧
      ops.orig_bend (ops.makeGPinput d iPhiSec) = ops.orig_bend d ∧
      ops.orig_dphi (ops.makeGPinput d iPhiSec) = ops.orig_dphi d ∧
      ops.orig_rho (ops.makeGPinput d iPhiSec) = ops.orig_rho d) ∧
    (ops.orig_phi (ops.makeHTinput d iPhiSec) = ops.orig_phi d ∧
      ops.orig_r (ops.makeHTinput d iPhiSec) = ops.orig_r d ∧
      ops.orig_z (ops.makeHTinput d iPhiSec) = ops.orig_z d ∧
      ops.orig_bend (ops.makeHTinput d iPhiSec) = ops.orig_bend d ∧
      ops.orig_dphi (ops.makeHTinput d iPhiSec) = ops.orig_dphi d ∧
      ops.orig_rho (ops.makeHTinput d iPhiSec) = ops.orig_rho d)

/-- Contract of `DigitalStub` used by the test of line 151: after
`makeGPinput(iPhiSec)` the recorded octant `iDigi_Octant()` is the octant
`iGetOctant(iPhiSec)` of that sector. -/
def DigitalStubOps.RecordsOctant {D : Type} (ops : DigitalStubOps D) : Prop :=
  ∀ (d : D) (iPhiSec : Nat),
    ops.iGetOctant (ops.makeGPinput d iPhiSec) iPhiSec =
      ops.iDigi_Octant (ops.makeGPinput d iPhiSec)

/-- Members of a stub as the constructor leaves them (lines 22, 23 and 99 to
103): both flags are false, the bin range is the one `calcQoverPtrange` computed
from the current members, and `digitalStub_.init` recorded the current
`phi_`, `r_`, `z_`, `dphi()`, `rhoParameter()` and `bend_` as original values. -/
def Stub.AsConstructed {D : Type} (cfg : Settings) (acc : StubAccessors)
    (ops : DigitalStubOps D) (s : Stub D) : Prop :=
  s.isRaw ∧
  (s.min_qOverPt_bin_, s.max_qOverPt_bin_) =
    TMTT.calcQoverPtrange cfg (acc.qOverPtOverBend s.toStubData) s.bend_ (acc.bendRes s.toStubData) ∧
  ops.orig_phi s.digitalStub_ = s.phi_ ∧ ops.orig_r s.digitalStub_ = s.r_ ∧
  ops.orig_z s.digitalStub_ = s.z_ ∧ ops.orig_bend s.digitalStub_ = s.bend_ ∧
  ops.orig_dphi s.digitalStub_ = s.dphi_ ∧ ops.orig_rho s.digitalStub_ = s.rhoParameter

/-- The stub after `digitizeForHTinput(iPhiSec)` followed by `reset_digitize()`. -/
def digitizeThenReset {D : Type} (cfg : Settings) (acc : StubAccessors) (ops : DigitalStubOps D)
    (iPhiSec : Nat) (s : Stub D) : Stub D :=
  Stub.reset_digitize cfg acc ops (Stub.digitizeForHTinput cfg acc ops iPhiSec s)

/-! ## A concrete stub for evaluations -/

/-- A concrete `digitalStub_` state: the original values, the digitised values
and the sector and octant of the last digitisation. -/
structure GridDigitalStub where
  o_phi : ℚ
  o_r : ℚ
  o_z : ℚ
  o_bend : ℚ
  o_dphi : ℚ
  o_rho : ℚ
  d_phi : ℚ
  d_r : ℚ
  d_z : ℚ
  d_bend : ℚ
  d_dphi : ℚ
  d_rho : ℚ
  phiSec : Nat
  octant : Nat

/-- Coarsening to a grid of step 1/4. -/
def onGrid (x : ℚ) : ℚ := (Int.floor (4 * x) : ℚ) / 4

/-- Digitisation functions over `GridDigitalStub`: four sectors per octant,
all quantities coarsened to a grid of step 1/4, phi relative to the octant for
the GP and to the sector for the HT. -/
def gridOps : DigitalStubOps GridDigitalStub where
  makeGPinput d iPhiSec :=
    { d with d_phi := onGrid (d.o_phi - (iPhiSec / 4 : Nat)), d_r := onGrid d.o_r,
             d_z := onGrid d.o_z, d_bend := onGrid d.o_bend, octant := iPhiSec / 4 }
  makeHTinput d iPhiSec :=
    { d with d_phi := onGrid (d.o_phi - iPhiSec / 4), d_dphi := onGrid d.o_dphi,
             d_rho := onGrid d.o_rho, phiSec := iPhiSec }
  iGetOctant _ iPhiSec := iPhiSec / 4
  iDigi_Octant d := d.octant
  iDigi_PhiSec d := d.phiSec
  phi d := d.d_phi
  r d := d.d_r
  z d := d.d_z
  bend d := d.d_bend
  dphi d := d.d_dphi
  rho d := d.d_rho
  orig_phi d := d.o_phi
  orig_r d := d.o_r
  orig_z d := d.o_z
  orig_bend d := d.o_bend
  orig_dphi d := d.o_dphi
  orig_rho d := d.o_rho

/-- Concrete accessors: a constant bend resolution 5/4, conversion factor
`1/(10 r)` scaled by `dphiOverBend_`, and `z/r` in place of the pseudorapidity. -/
def gridAcc : StubAccessors where
  bendRes _ := 5 / 4
  bendResInFrontend _ := 5 / 4
  qOverPtOverBend d := d.dphiOverBend_ / (10 * d.r_)
  eta d := d.z_ / d.r_

/-- Data members of a concrete stub with the given bend. -/
def gridData (bend : ℚ) : StubData :=
  { phi_ := 9 / 8, r_ := 1 / 2, z_ := 1 / 4, bend_ := bend, bendInFrontend_ := bend,
    numMergedBend_ := 1, dphi_ := bend / 2, rhoParameter_ := 3 / 8, dphiOverBend_ := 1 / 2,
    pitchOverSep_ := 1 / 20, layerId_ := 3 }

/-- A concrete stub in the state the constructor leaves it in, under the
configuration `cfg`. -/
def gridStub (cfg : Settings) (bend : ℚ) : Stub GridDigitalStub :=
  let d := gridData bend
  let range := calcQoverPtrange cfg (gridAcc.qOverPtOverBend d) d.bend_ (gridAcc.bendRes d)
  { toStubData := d,
    min_qOverPt_bin_ := range.1, max_qOverPt_bin_ := range.2,
    frontendPass_ := true, stubFailedDataCorrWindow_ := false,
    digitizedForGPinput_ := false, digitizedForHTinput_ := false,
    digitalStub_ :=
      { o_phi := d.phi_, o_r := d.r_, o_z := d.z_, o_bend := d.bend_, o_dphi := d.dphi_,
        o_rho := d.rhoParameter_, d_phi := 0, d_r := 0, d_z := 0, d_bend := 0, d_dphi := 0,
        d_rho := 0, phiSec := 0, octant := 0 } }

/-! ## The bin-range procedure of the specification -/

/-- Quantities the constructor reads from its arguments: the global position
of the hit, the trigger bend, the detector identifier, the positions of the
two sensors and the pitch of the module.  `rho` is the value `rhoParameter()`
has at construction; `Stub.cc` does not assign it. -/
structure StubInput where
  pos_phi : ℚ
  pos_perp : ℚ
  pos_z : ℚ
  triggerBend : ℚ
  isBarrel : Bool
  isEndcap : Bool
  iLayer : Nat
  iSide : Nat
  iDisk : Nat
  iRing : Nat
  R0 : ℚ
  R1 : ℚ
  Z0 : ℚ
  Z1 : ℚ
  pitch_first : ℚ
  pitch_second : ℚ
  rho : ℚ

/-- Members set by `Stub::setModuleInfo` that the constructor reads afterwards. -/
structure ModuleInfo where
  moduleMinR_ : ℚ
  moduleMaxR_ : ℚ
  moduleMinZ_ : ℚ
  moduleMaxZ_ : ℚ
  barrel_ : Bool
  layerId_ : Nat
  endcapRing_ : Nat
  stripPitch_ : ℚ
  stripLength_ : ℚ

/-- `Stub::setModuleInfo`, restricted to the members of `ModuleInfo`. -/
def setModuleInfo (inp : StubInput) : ModuleInfo :=
  { moduleMinR_ := min inp.R0 inp.R1
    moduleMaxR_ := max inp.R0 inp.R1
    moduleMinZ_ := min inp.Z0 inp.Z1
    moduleMaxZ_ := max inp.Z0 inp.Z1
    barrel_ := inp.isBarrel
    layerId_ := encodeLayerId inp.isBarrel inp.iLayer inp.iSide inp.iDisk
    endcapRing_ := if inp.isBarrel then 0 else inp.iRing
    stripPitch_ := inp.pitch_first
    stripLength_ := inp.pitch_second }

/-- The two conversion functions of `DataCorrection.h` (not among the sources):
from a bend and a layer or ring to the degraded bend, the rejection flag and
the number of merged bend values. -/
structure DataCorrection where
  ConvertBarrelBend : ℚ → Nat → ℚ × Bool × Nat
  ConvertEndcapBend : ℚ → Nat → ℚ × Bool × Nat

/-- `Stub::degradeResolution`: the triple `(degradedBend, reject, num)`. -/
def degradeResolution (dc : DataCorrection) (barrel_ : Bool) (bend : ℚ) (iLayer iRing : Nat) :
    ℚ × Bool × Nat :=
  if barrel_ then dc.ConvertBarrelBend bend iLayer else dc.ConvertEndcapBend bend iRing

/-- Construction and `init` of the member `digitalStub_` (`DigitalStub.h` is not
among the sources).  The arguments of `init` are, in order, phi, r, z, dphi,
rho, the two bins, the layer id, the reduced layer id, the bend, the pitch and
the sensor spacing. -/
structure DigitalStubInit (D : Type) where
  create : Settings → D
  init : D → ℚ → ℚ → ℚ → ℚ → ℚ → Nat → Nat → Nat → Nat → ℚ → ℚ → ℚ → D

/-- The bend of lines 66 and 67: the trigger bend, with its sign flipped for an
endcap module at positive z.  This is the value stored in `bendInFrontend_`. -/
def frontendBend (inp : StubInput) : ℚ :=
  if inp.isEndcap = true ∧ inp.pos_z > 0 then inp.triggerBend * (-1) else inp.triggerBend

/-- The test of line 35: the hit lies outside the assumed tracker volume. -/
def outsideTrackerVolume (cfg : Settings) (inp : StubInput) : Prop :=
  inp.pos_perp < cfg.trackerInnerRadius ∨ inp.pos_perp > cfg.trackerOuterRadius ∨
    |inp.pos_z| > cfg.trackerHalfLength

instance (cfg : Settings) (inp : StubInput) : Decidable (outsideTrackerVolume cfg inp) := by
  unfold outsideTrackerVolume; exact inferInstance

/-- The constructor `Stub::Stub`, for the members of the record `Stub`; a thrown
`cms::Exception` is the `error` result.  The members not in the record (position
uncertainties, cluster coordinates, `iphi_`) do not enter the computation of
those that are; the getters `dphiOverBend()` and `dphi()` of `Stub.h` are
read as the members `dphiOverBend_` and `dphi_`. -/
def Stub.construct {D : Type} (cfg : Settings) (acc : StubAccessors) (dc : DataCorrection)
    (di : DigitalStubInit D) (inp : StubInput) : Except String (Stub D) :=
  let phi_ := inp.pos_phi
  let r_ := inp.pos_perp
  let z_ := inp.pos_z
  if r_ < cfg.trackerInnerRadius ∨ r_ > cfg.trackerOuterRadius ∨ |z_| > cfg.trackerHalfLength then
    Except.error "Stub: Stub found outside assumed tracker volume. Please update tracker dimensions specified in Settingsm.h!"
  else
    let m := setModuleInfo inp
    let bend := frontendBend inp
    let bendInFrontend_ := bend
    let degraded := degradeResolution dc m.barrel_ bend inp.iLayer inp.iRing
    let degradedBend := degraded.1
    let rejectStub := degraded.2.1
    let numMergedBend := degraded.2.2
    let bend := if cfg.bendResReduced then degradedBend else bend
    let numMergedBend_ := if cfg.bendResReduced then numMergedBend else 1
    let bend_ := bend
    let pitch := m.stripPitch_
    let sensorSpacing :=
      if m.barrel_ then m.moduleMaxR_ - m.moduleMinR_ else m.moduleMaxZ_ - m.moduleMinZ_
    let pitchOverSep_ := pitch / sensorSpacing
    let deltaR := if m.barrel_ then sensorSpacing else sensorSpacing * r_ / |z_|
    let dphiOverBend_ := pitch / deltaR
    let dphi_ := bend_ * dphiOverBend_
    let s : Stub D :=
      { phi_ := phi_, r_ := r_, z_ := z_, bend_ := bend_, bendInFrontend_ := bendInFrontend_,
        numMergedBend_ := numMergedBend_, dphi_ := dphi_, rhoParameter_ := inp.rho,
        dphiOverBend_ := dphiOverBend_, pitchOverSep_ := pitchOverSep_, layerId_ := m.layerId_,
        min_qOverPt_bin_ := 0, max_qOverPt_bin_ := 0, frontendPass_ := true,
        stubFailedDataCorrWindow_ := false, digitizedForGPinput_ := false,
        digitizedForHTinput_ := false, digitalStub_ := di.create cfg }
    let s := Stub.setFrontend cfg acc rejectStub s
    let s := Stub.calcQoverPtrange cfg acc s
    match layerIdReduced s.layerId_ with
    | Except.error e => Except.error e
    | Except.ok reduced =>
      let d := di.init s.digitalStub_ s.phi_ s.r_ s.z_ s.dphi_ s.rhoParameter
        s.min_qOverPt_bin_ s.max_qOverPt_bin_ s.layerId_ reduced s.bend_ m.stripPitch_
        sensorSpacing
      Except.ok { s with digitalStub_ := d }

/-! ## Further contracts and state predicates -/

/-- Contract of `DigitalStub` used by the test of line 180: after
`makeHTinput(iPhiSec)` the recorded sector `iDigi_PhiSec()` is `iPhiSec`. -/
def DigitalStubOps.RecordsPhiSec {D : Type} (ops : DigitalStubOps D) : Prop :=
  ∀ (d : D) (iPhiSec : Nat), ops.iDigi_PhiSec (ops.makeHTinput d iPhiSec) = iPhiSec

/-- The stored bin range is the one `calcQoverPtrange` computes from the
current bend, bend resolution and conversion factor of the stub. -/
def Stub.binRangeCurrent {D : Type} (cfg : Settings) (acc : StubAccessors) (s : Stub D) : Prop :=
  (s.min_qOverPt_bin_, s.max_qOverPt_bin_) =
    TMTT.calcQoverPtrange cfg (acc.qOverPtOverBend s.toStubData) s.bend_ (acc.bendRes s.toStubData)

/-- The stub is digitised for the GP and the HT with sector `iPhiSec`: both
flags are set, the recorded octant is the one of `iPhiSec` and the recorded
sector is `iPhiSec`. -/
def Stub.digitizedForBothIn {D : Type} (ops : DigitalStubOps D) (iPhiSec : Nat) (s : Stub D) :
    Prop :=
  s.digitizedForGPinput_ = true ∧ s.digitizedForHTinput_ = true ∧
    ops.iGetOctant s.digitalStub_ iPhiSec = ops.iDigi_Octant s.digitalStub_ ∧
    ops.iDigi_PhiSec s.digitalStub_ = iPhiSec

/-- The stub `t` has the same `dphi_`, rho parameter and stored bin range as
the stub `s`. -/
def Stub.sameHoughMembers {D : Type} (s t : Stub D) : Prop :=
  t.dphi_ = s.dphi_ ∧ t.rhoParameter = s.rhoParameter ∧
    t.min_qOverPt_bin_ = s.min_qOverPt_bin_ ∧ t.max_qOverPt_bin_ = s.max_qOverPt_bin_

/-! ## Concrete constructor arguments for evaluations -/

/-- A concrete resolution model: bends are degraded to half-integers, two raw
values merge into one, and bends beyond 6 in magnitude are outside the window. -/
def gridCorrection : DataCorrection where
  ConvertBarrelBend bend _ := ((Int.floor (2 * bend) : ℚ) / 2, decide (|bend| > 6), 2)
  ConvertEndcapBend bend _ := ((Int.floor (2 * bend) : ℚ) / 2, decide (|bend| > 6), 2)

/-- Construction and `init` of the concrete digital stub: `init` records the
original values. -/
def gridInit : DigitalStubInit GridDigitalStub where
  create _ :=
    { o_phi := 0, o_r := 0, o_z := 0, o_bend := 0, o_dphi := 0, o_rho := 0, d_phi := 0,
      d_r := 0, d_z := 0, d_bend := 0, d_dphi := 0, d_rho := 0, phiSec := 0, octant := 0 }
  init d phi r z dphi rho _ _ _ _ bend _ _ :=
    { d with o_phi := phi, o_r := r, o_z := z, o_bend := bend, o_dphi := dphi, o_rho := rho }

/-- A concrete hit of trigger bend 2 at the given radius and z = 30 in a barrel
module of the given layer, with sensors at radii 50 and 50.2 and pitch 0.01. -/
def gridInput (iLayer : Nat) (perp : ℚ) : StubInput :=
  { pos_phi := 9 / 8, pos_perp := perp, pos_z := 30, triggerBend := 2, isBarrel := true,
    isEndcap := false, iLayer := iLayer, iSide := 0, iDisk := 0, iRing := 0, R0 := 50,
    R1 := 251 / 5, Z0 := 30, Z1 := 30, pitch_first := 1 / 100, pitch_second := 5, rho := 3 / 8 }

set_option maxRecDepth 100000

/-! ## Auxiliary facts on the machine arithmetic -/

theorem roundHalfEven_intCast (n : ℤ) : roundHalfEven (n : ℚ) = n := by
  unfold roundHalfEven
  simp

theorem floor_le_roundHalfEven (x : ℚ) : Int.floor x ≤ roundHalfEven x := by
  unfold roundHalfEven
  simp only []
  split_ifs <;> omega

theorem roundHalfEven_le_floor_add_one (x : ℚ) : roundHalfEven x ≤ Int.floor x + 1 := by
  unfold roundHalfEven
  simp only []
  split_ifs <;> omega

theorem roundHalfEven_mono {x y : ℚ} (h : x ≤ y) : roundHalfEven x ≤ roundHalfEven y := by
  have hfl : Int.floor x ≤ Int.floor y := Int.floor_le_floor h
  rcases hfl.lt_or_eq with hlt | heq
  · have h1 := roundHalfEven_le_floor_add_one x
    have h2 := floor_le_roundHalfEven y
    omega
  · unfold roundHalfEven
    simp only []
    rw [heq]
    split_ifs <;> first | omega | (exfalso; linarith)

theorem log2Fuel_spec (fuel n : ℕ) (hn : 0 < n) (hf : n ≤ fuel) :
    2 ^ log2Fuel fuel n ≤ n ∧ n < 2 ^ (log2Fuel fuel n + 1) := by
  induction fuel generalizing n with
  | zero => omega
  | succ fuel ih =>
    unfold log2Fuel
    split_ifs with h2
    · have hdiv : 0 < n / 2 := Nat.div_pos h2 (by norm_num)
      have hle : n / 2 ≤ fuel := by omega
      obtain ⟨i1, i2⟩ := ih (n / 2) hdiv hle
      have e1 : 2 ^ (log2Fuel fuel (n / 2) + 1) = 2 * 2 ^ log2Fuel fuel (n / 2) := by ring
      have e2 : 2 ^ (log2Fuel fuel (n / 2) + 1 + 1) = 2 * 2 ^ (log2Fuel fuel (n / 2) + 1) := by
        ring
      rw [e2, e1]
      rw [e1] at i2
      constructor <;> omega
    · have : n = 1 := by omega
      subst this
      simp

theorem ilog2_spec (n : ℕ) (hn : 0 < n) : 2 ^ ilog2 n ≤ n ∧ n < 2 ^ (ilog2 n + 1) :=
  log2Fuel_spec n n hn le_rfl

theorem binade_spec (q : ℚ) (hq : 0 < q) :
    (2 : ℚ) ^ binade q ≤ q ∧ q < (2 : ℚ) ^ (binade q + 1) := by
  have hnum : 0 < q.num := Rat.num_pos.mpr hq
  have ha : 0 < q.num.toNat := by omega
  have hb : 0 < q.den := q.den_pos
  obtain ⟨a1, a2⟩ := ilog2_spec q.num.toNat ha
  obtain ⟨b1, b2⟩ := ilog2_spec q.den hb
  have hq' : q = (q.num.toNat : ℚ) / (q.den : ℚ) := by
    have h1 : ((q.num.toNat : ℤ) : ℚ) = (q.num : ℚ) := by
      rw [Int.toNat_of_nonneg hnum.le]
    have h2 : (q.num.toNat : ℚ) = (q.num : ℚ) := by exact_mod_cast h1
    rw [h2]
    exact (Rat.num_div_den q).symm
  have hbq : (0 : ℚ) < (q.den : ℚ) := by exact_mod_cast hb
  have a1' : (2 : ℚ) ^ ilog2 q.num.toNat ≤ (q.num.toNat : ℚ) := by exact_mod_cast a1
  have a2' : (q.num.toNat : ℚ) < (2 : ℚ) ^ (ilog2 q.num.toNat + 1) := by exact_mod_cast a2
  have b1' : (2 : ℚ) ^ ilog2 q.den ≤ (q.den : ℚ) := by exact_mod_cast b1
  have b2' : (q.den : ℚ) < (2 : ℚ) ^ (ilog2 q.den + 1) := by exact_mod_cast b2
  set la := ilog2 q.num.toNat with hla
  set lb := ilog2 q.den with hlb
  have two_ne : (2 : ℚ) ≠ 0 := by norm_num
  have hup : q < (2 : ℚ) ^ ((la : ℤ) - (lb : ℤ) + 1) := by
    have e : (2 : ℚ) ^ ((la : ℤ) - (lb : ℤ) + 1) = (2 : ℚ) ^ (la + 1) / (2 : ℚ) ^ lb := by
      rw [← zpow_natCast, ← zpow_natCast, ← zpow_sub₀ two_ne]
      congr 1
      push_cast
      ring
    rw [e, hq', div_lt_div_iff₀ hbq (by positivity)]
    calc (q.num.toNat : ℚ) * (2 : ℚ) ^ lb ≤ (q.num.toNat : ℚ) * (q.den : ℚ) :=
          mul_le_mul_of_nonneg_left b1' (by positivity)
      _ < (2 : ℚ) ^ (la + 1) * (q.den : ℚ) := mul_lt_mul_of_pos_right a2' hbq
  have hdown : (2 : ℚ) ^ ((la : ℤ) - (lb : ℤ) - 1) < q := by
    have e : (2 : ℚ) ^ ((la : ℤ) - (lb : ℤ) - 1) = (2 : ℚ) ^ la / (2 : ℚ) ^ (lb + 1) := by
      rw [← zpow_natCast, ← zpow_natCast, ← zpow_sub₀ two_ne]
      congr 1
      push_cast
      ring
    rw [e, hq', div_lt_div_iff₀ (by positivity) hbq]
    have hapos : (0 : ℚ) < (q.num.toNat : ℚ) := by exact_mod_cast ha
    calc (2 : ℚ) ^ la * (q.den : ℚ) ≤ (q.num.toNat : ℚ) * (q.den : ℚ) :=
          mul_le_mul_of_nonneg_right a1' hbq.le
      _ < (q.num.toNat : ℚ) * (2 : ℚ) ^ (lb + 1) := mul_lt_mul_of_pos_left b2' hapos
  unfold binade
  simp only []
  rw [← hla, ← hlb]
  split_ifs with h
  · exact ⟨h, hup⟩
  · refine ⟨hdown.le, ?_⟩
    have : (la : ℤ) - (lb : ℤ) - 1 + 1 = (la : ℤ) - (lb : ℤ) := by ring
    rw [this]
    exact not_le.mp h

theorem binade_eq_log (q : ℚ) (hq : 0 < q) : binade q = Int.log 2 q := by
  obtain ⟨h1, h2⟩ := binade_spec q hq
  have c1 : binade q ≤ Int.log 2 q := by
    rw [← Int.zpow_le_iff_le_log (by norm_num) hq]
    exact_mod_cast h1
  have c2 : Int.log 2 q < binade q + 1 := by
    rw [← Int.lt_zpow_iff_log_lt (by norm_num) hq]
    exact_mod_cast h2
  omega

theorem roundPos_bounds (p : ℕ) (hp : 1 ≤ p) (q : ℚ) (hq : 0 < q) :
    (2 : ℚ) ^ (Int.log 2 q) ≤ roundPos p q ∧ roundPos p q ≤ (2 : ℚ) ^ (Int.log 2 q + 1) := by
  have hlo : (2 : ℚ) ^ (Int.log 2 q) ≤ q := by
    have := Int.zpow_log_le_self (b := 2) (r := q) (by norm_num) hq
    exact_mod_cast this
  have hhi : q < (2 : ℚ) ^ (Int.log 2 q + 1) := by
    have := Int.lt_zpow_succ_log_self (b := 2) (by norm_num) q
    exact_mod_cast this
  obtain ⟨n, rfl⟩ : ∃ n : ℕ, p = n + 1 := ⟨p - 1, by omega⟩
  unfold roundPos
  simp only []
  rw [binade_eq_log q hq]
  have hsub : ((n + 1 : ℕ) : ℤ) - 1 = (n : ℤ) := by push_cast; ring
  rw [hsub]
  set e := Int.log 2 q with he
  have hu : (0 : ℚ) < (2 : ℚ) ^ (e - (n : ℤ)) := by positivity
  have hsplit : (2 : ℚ) ^ e = ((2 ^ n : ℤ) : ℚ) * (2 : ℚ) ^ (e - (n : ℤ)) := by
    push_cast
    rw [← zpow_natCast, ← zpow_add₀ (by norm_num : (2 : ℚ) ≠ 0)]
    congr 1
    ring
  have hsplit' : (2 : ℚ) ^ (e + 1) = ((2 ^ (n + 1) : ℤ) : ℚ) * (2 : ℚ) ^ (e - (n : ℤ)) := by
    push_cast
    rw [← zpow_natCast, ← zpow_add₀ (by norm_num : (2 : ℚ) ≠ 0)]
    congr 1
    push_cast
    ring
  have hm1 : ((2 ^ n : ℤ) : ℚ) ≤ q / (2 : ℚ) ^ (e - (n : ℤ)) := by
    rw [le_div_iff₀ hu, ← hsplit]
    exact hlo
  have hm2 : q / (2 : ℚ) ^ (e - (n : ℤ)) ≤ ((2 ^ (n + 1) : ℤ) : ℚ) := by
    rw [div_le_iff₀ hu, ← hsplit']
    exact hhi.le
  have r1 := roundHalfEven_mono hm1
  have r2 := roundHalfEven_mono hm2
  rw [roundHalfEven_intCast] at r1 r2
  constructor
  · rw [hsplit]
    exact mul_le_mul_of_nonneg_right (by exact_mod_cast r1) hu.le
  · rw [hsplit']
    exact mul_le_mul_of_nonneg_right (by exact_mod_cast r2) hu.le

theorem roundPos_pos (p : ℕ) (hp : 1 ≤ p) (q : ℚ) (hq : 0 < q) : 0 < roundPos p q :=
  lt_of_lt_of_le (by positivity) (roundPos_bounds p hp q hq).1

theorem roundPos_mono (p : ℕ) (hp : 1 ≤ p) {q₁ q₂ : ℚ} (h₁ : 0 < q₁) (h : q₁ ≤ q₂) :
    roundPos p q₁ ≤ roundPos p q₂ := by
  have h₂ : 0 < q₂ := lt_of_lt_of_le h₁ h
  have hlog : Int.log 2 q₁ ≤ Int.log 2 q₂ := Int.log_mono_right h₁ h
  rcases hlog.lt_or_eq with hlt | heq
  · have b1 := (roundPos_bounds p hp q₁ h₁).2
    have b2 := (roundPos_bounds p hp q₂ h₂).1
    have hz : (2 : ℚ) ^ (Int.log 2 q₁ + 1) ≤ (2 : ℚ) ^ (Int.log 2 q₂) :=
      zpow_le_zpow_right₀ (by norm_num) (by omega)
    linarith
  · unfold roundPos
    simp only []
    rw [binade_eq_log q₁ h₁, binade_eq_log q₂ h₂, heq]
    have hu : (0 : ℚ) < (2 : ℚ) ^ (Int.log 2 q₂ - ((p : ℤ) - 1)) := by positivity
    apply mul_le_mul_of_nonneg_right _ hu.le
    have := roundHalfEven_mono (div_le_div_of_nonneg_right h hu.le)
    exact_mod_cast this

theorem roundToPrec_pos (p : ℕ) (hp : 1 ≤ p) {q : ℚ} (hq : 0 < q) : 0 < roundToPrec p q := by
  unfold roundToPrec
  rw [if_pos hq]
  exact roundPos_pos p hp q hq

theorem roundToPrec_mono (p : ℕ) (hp : 1 ≤ p) {q₁ q₂ : ℚ} (h : q₁ ≤ q₂) :
    roundToPrec p q₁ ≤ roundToPrec p q₂ := by
  unfold roundToPrec
  by_cases h1 : 0 < q₁
  · have h2 : 0 < q₂ := lt_of_lt_of_le h1 h
    rw [if_pos h1, if_pos h2]
    exact roundPos_mono p hp h1 h
  · rw [if_neg h1]
    by_cases h1n : q₁ < 0
    · rw [if_pos h1n]
      have hn := roundPos_pos p hp (-q₁) (by linarith)
      by_cases h2 : 0 < q₂
      · rw [if_pos h2]
        have := roundPos_pos p hp q₂ h2
        linarith
      · rw [if_neg h2]
        by_cases h2n : q₂ < 0
        · rw [if_pos h2n]
          have := @roundPos_mono p hp (-q₂) (-q₁) (by linarith) (by linarith)
          linarith
        · rw [if_neg h2n]
          linarith
    · rw [if_neg h1n]
      have hz : q₁ = 0 := le_antisymm (not_lt.mp h1) (not_lt.mp h1n)
      by_cases h2 : 0 < q₂
      · rw [if_pos h2]
        exact (roundPos_pos p hp q₂ h2).le
      · have h2n : ¬ q₂ < 0 := by linarith
        rw [if_neg h2, if_neg h2n]

theorem toFloat_mono {q₁ q₂ : ℚ} (h : q₁ ≤ q₂) : toFloat q₁ ≤ toFloat q₂ :=
  roundToPrec_mono 24 (by norm_num) h

theorem toDouble_mono {q₁ q₂ : ℚ} (h : q₁ ≤ q₂) : toDouble q₁ ≤ toDouble q₂ :=
  roundToPrec_mono 53 (by norm_num) h

theorem toFloat_pos {q : ℚ} (h : 0 < q) : 0 < toFloat q :=
  roundToPrec_pos 24 (by norm_num) h

theorem toDouble_pos {q : ℚ} (h : 0 < q) : 0 < toDouble q :=
  roundToPrec_pos 53 (by norm_num) h

theorem floatToInt_of_range {x : Int} (h₁ : -2147483648 ≤ x) (h₂ : x < 2147483648) :
    floatToInt x = x := by
  unfold floatToInt
  rw [if_pos ⟨h₁, h₂⟩]

/-! ## Auxiliary facts on the bin range -/

theorem calcQoverPtrangeBins_eq (cfg : Settings) (k bend bendRes : ℚ) :
    calcQoverPtrangeBins cfg k bend bendRes =
      if clampedMaxBin cfg k bend bendRes < clampedMinBin cfg k bend bendRes then
        ((cfg.houghNbinsPt : Int) - 1, 0)
      else (clampedMinBin cfg k bend bendRes, clampedMaxBin cfg k bend bendRes) := by
  simp [calcQoverPtrangeBins, max_array_bin, min_array_bin]

theorem clampedMinBin_nonneg (cfg : Settings) (k bend bendRes : ℚ) :
    0 ≤ clampedMinBin cfg k bend bendRes := by
  simp [clampedMinBin, min_array_bin]

theorem clampedMaxBin_le (cfg : Settings) (k bend bendRes : ℚ) :
    clampedMaxBin cfg k bend bendRes ≤ (cfg.houghNbinsPt : Int) - 1 := by
  simp [clampedMaxBin, max_array_bin]

theorem calcQoverPtrange_eq (cfg : Settings) (k bend bendRes : ℚ) :
    calcQoverPtrange cfg k bend bendRes =
      if clampedMaxBin cfg k bend bendRes < clampedMinBin cfg k bend bendRes then
        (cfg.houghNbinsPt - 1, 0)
      else ((clampedMinBin cfg k bend bendRes).toNat, (clampedMaxBin cfg k bend bendRes).toNat) := by
  unfold calcQoverPtrange
  rw [calcQoverPtrangeBins_eq]
  split_ifs with h
  · ext <;> simp
  · rfl

theorem qOverPtBinSize_pos (cfg : Settings) (hN : 1 ≤ cfg.houghNbinsPt)
    (hP : 0 < cfg.houghMinPt) : 0 < qOverPtBinSize cfg := by
  unfold qOverPtBinSize houghMaxInvPt
  have hN' : (0 : ℚ) < (cfg.houghNbinsPt : ℚ) := by exact_mod_cast hN
  have h1 : 0 < toFloat (toDouble (1 / cfg.houghMinPt)) :=
    toFloat_pos (toDouble_pos (by positivity))
  have h2 : 0 < toDouble (2 * toFloat (toDouble (1 / cfg.houghMinPt))) :=
    toDouble_pos (by positivity)
  exact toFloat_pos (toDouble_pos (by positivity))

theorem qOverPtFloor_mono (cfg : Settings) (hN : 1 ≤ cfg.houghNbinsPt)
    (hP : 0 < cfg.houghMinPt) {q₁ q₂ : ℚ} (h : q₁ ≤ q₂) :
    qOverPtFloor cfg q₁ ≤ qOverPtFloor cfg q₂ := by
  unfold qOverPtFloor
  apply Int.floor_le_floor
  have hw := qOverPtBinSize_pos cfg hN hP
  apply toFloat_mono
  apply div_le_div_of_nonneg_right _ hw.le
  apply toFloat_mono
  linarith

/-! ## Claims on `Stub::calcQoverPtrange` -/

/-- C1 (refuted as stated): with 32 bins and `houghMinPt = 3`, a stub of bend 5,
resolution 0 and conversion factor 1 has its range above the array; the stored
pair is `(31, 0)`, so `min_qOverPt_bin_ ≤ max_qOverPt_bin_` fails. -/
theorem calcQoverPtrange_min_le_max_fails :
    1 ≤ (binCfg 32 3).houghNbinsPt ∧ 0 < (binCfg 32 3).houghMinPt ∧
      calcQoverPtrange (binCfg 32 3) 1 5 0 = (31, 0) ∧
      ¬ ((calcQoverPtrange (binCfg 32 3) 1 5 0).1 ≤ (calcQoverPtrange (binCfg 32 3) 1 5 0).2) := by
  have h : calcQoverPtrange (binCfg 32 3) 1 5 0 = (31, 0) := by with_unfolding_all rfl
  refine ⟨by decide, by norm_num [binCfg], h, ?_⟩
  rw [h]; decide

/-- C1 (amended): for `N ≥ 1` bins and `houghMinPt > 0`, the stored pair
satisfies `min_qOverPt_bin_ ≤ max_qOverPt_bin_` whenever the range limited to
the array is not inverted, and is `(N - 1, 0)` whenever it is inverted. -/
theorem calcQoverPtrange_ordered_unless_inverted (cfg : Settings) (k bend bendRes : ℚ)
    (_hN : 1 ≤ cfg.houghNbinsPt) (_hP : 0 < cfg.houghMinPt) :
    (clampedMinBin cfg k bend bendRes ≤ clampedMaxBin cfg k bend bendRes →
      (calcQoverPtrange cfg k bend bendRes).1 ≤ (calcQoverPtrange cfg k bend bendRes).2) ∧
    (clampedMaxBin cfg k bend bendRes < clampedMinBin cfg k bend bendRes →
      calcQoverPtrange cfg k bend bendRes = (cfg.houghNbinsPt - 1, 0)) := by
  unfold calcQoverPtrange
  rw [calcQoverPtrangeBins_eq]
  constructor
  · intro h
    rw [if_neg (not_lt.mpr h)]
    exact Int.toNat_le_toNat h
  · intro h
    rw [if_pos h]
    ext <;> simp

/-- Witness of `calcQoverPtrange_ordered_unless_inverted`: 32 bins,
`houghMinPt = 3`, conversion factor 1/10, bend 1, resolution 5/4; the limited
range, bins 14 to 26, is not inverted and is stored in order. -/
theorem calcQoverPtrange_ordered_unless_inverted_witness :
    1 ≤ (binCfg 32 3).houghNbinsPt ∧ 0 < (binCfg 32 3).houghMinPt ∧
    clampedMinBin (binCfg 32 3) (1 / 10) 1 (5 / 4) ≤
      clampedMaxBin (binCfg 32 3) (1 / 10) 1 (5 / 4) ∧
    (calcQoverPtrange (binCfg 32 3) (1 / 10) 1 (5 / 4)).1 ≤
      (calcQoverPtrange (binCfg 32 3) (1 / 10) 1 (5 / 4)).2 :=
  have hle : clampedMinBin (binCfg 32 3) (1 / 10) 1 (5 / 4) ≤
      clampedMaxBin (binCfg 32 3) (1 / 10) 1 (5 / 4) := by with_unfolding_all decide
  ⟨by decide, by norm_num [binCfg], hle,
    (calcQoverPtrange_ordered_unless_inverted (binCfg 32 3) (1 / 10) 1 (5 / 4) (by decide)
      (by norm_num [binCfg])).1 hle⟩

/-- C2 (refuted as stated): with 32 bins and `houghMinPt = 3`, a stub of bend 5,
resolution 1/4 and conversion factor 1 stores `(N - 1, 0) = (31, 0)` although
the bins before clamping, 244 and 268, are not inverted. -/
theorem calcQoverPtrange_swap_iff_unclamped_fails :
    1 ≤ (binCfg 32 3).houghNbinsPt ∧ 0 < (binCfg 32 3).houghMinPt ∧
      ¬ (calcQoverPtrange (binCfg 32 3) 1 5 (1 / 4) = ((binCfg 32 3).houghNbinsPt - 1, 0) ↔
          unclampedMinBin (binCfg 32 3) 1 5 (1 / 4) > unclampedMaxBin (binCfg 32 3) 1 5 (1 / 4)) := by
  have h : calcQoverPtrange (binCfg 32 3) 1 5 (1 / 4) = (31, 0) := by with_unfolding_all rfl
  have hmin : unclampedMinBin (binCfg 32 3) 1 5 (1 / 4) = 244 := by with_unfolding_all rfl
  have hmax : unclampedMaxBin (binCfg 32 3) 1 5 (1 / 4) = 268 := by with_unfolding_all rfl
  refine ⟨by decide, by norm_num [binCfg], ?_⟩
  rw [h, hmin, hmax]
  simp [binCfg]

/-- C2 (amended): for `N ≥ 1` bins and `houghMinPt > 0`, an inverted range
before clamping makes `Stub::calcQoverPtrange` store `(N - 1, 0)`; and for
`N ≥ 2` the stored pair is `(N - 1, 0)` if and only if the range is inverted
after the two bounds were limited to the array. -/
theorem calcQoverPtrange_swap_iff_clamped_inverted (cfg : Settings) (k bend bendRes : ℚ)
    (_hN : 1 ≤ cfg.houghNbinsPt) (_hP : 0 < cfg.houghMinPt) :
    (unclampedMinBin cfg k bend bendRes > unclampedMaxBin cfg k bend bendRes →
      calcQoverPtrange cfg k bend bendRes = (cfg.houghNbinsPt - 1, 0)) ∧
    (2 ≤ cfg.houghNbinsPt →
      (calcQoverPtrange cfg k bend bendRes = (cfg.houghNbinsPt - 1, 0) ↔
        clampedMinBin cfg k bend bendRes > clampedMaxBin cfg k bend bendRes)) := by
  have hswap : clampedMaxBin cfg k bend bendRes < clampedMinBin cfg k bend bendRes →
      calcQoverPtrange cfg k bend bendRes = (cfg.houghNbinsPt - 1, 0) := by
    intro h
    unfold calcQoverPtrange
    rw [calcQoverPtrangeBins_eq, if_pos h]
    ext <;> simp
  constructor
  · intro h
    apply hswap
    have h1 : unclampedMinBin cfg k bend bendRes ≤ clampedMinBin cfg k bend bendRes :=
      le_max_left _ _
    have h2 : clampedMaxBin cfg k bend bendRes ≤ unclampedMaxBin cfg k bend bendRes :=
      min_le_left _ _
    omega
  · intro hN2
    constructor
    · intro h
      by_contra hle
      have hle' : ¬ clampedMaxBin cfg k bend bendRes < clampedMinBin cfg k bend bendRes := hle
      unfold calcQoverPtrange at h
      rw [calcQoverPtrangeBins_eq, if_neg hle'] at h
      have h0 := clampedMinBin_nonneg cfg k bend bendRes
      have hfst := congrArg Prod.fst h
      have hsnd := congrArg Prod.snd h
      simp only at hfst hsnd
      omega
    · exact hswap

/-- Witness of `calcQoverPtrange_swap_iff_clamped_inverted`: 32 bins,
`houghMinPt = 3`, conversion factor 1, bend 5, resolution 1/4. -/
theorem calcQoverPtrange_swap_iff_clamped_inverted_witness :
    1 ≤ (binCfg 32 3).houghNbinsPt ∧ 0 < (binCfg 32 3).houghMinPt ∧
    2 ≤ (binCfg 32 3).houghNbinsPt ∧
    (calcQoverPtrange (binCfg 32 3) 1 5 (1 / 4) = ((binCfg 32 3).houghNbinsPt - 1, 0) ↔
      clampedMinBin (binCfg 32 3) 1 5 (1 / 4) > clampedMaxBin (binCfg 32 3) 1 5 (1 / 4)) :=
  ⟨by decide, by norm_num [binCfg], by decide,
    (calcQoverPtrange_swap_iff_clamped_inverted (binCfg 32 3) 1 5 (1 / 4) (by decide)
      (by norm_num [binCfg])).2 (by decide)⟩

/-- C3: for `N ≥ 1` bins and `houghMinPt > 0`, both signed bins of
`Stub::calcQoverPtrange` lie in `[0, N - 1]`, in the swapped case too, so the
casts to `unsigned int` preserve their values and both stored bounds are at
most `N - 1`. -/
theorem calcQoverPtrange_bins_in_array (cfg : Settings) (k bend bendRes : ℚ)
    (hN : 1 ≤ cfg.houghNbinsPt) (_hP : 0 < cfg.houghMinPt) :
    (0 ≤ (calcQoverPtrangeBins cfg k bend bendRes).1 ∧
      (calcQoverPtrangeBins cfg k bend bendRes).1 ≤ (cfg.houghNbinsPt : Int) - 1) ∧
    (0 ≤ (calcQoverPtrangeBins cfg k bend bendRes).2 ∧
      (calcQoverPtrangeBins cfg k bend bendRes).2 ≤ (cfg.houghNbinsPt : Int) - 1) ∧
    (((calcQoverPtrange cfg k bend bendRes).1 : Int) = (calcQoverPtrangeBins cfg k bend bendRes).1 ∧
      ((calcQoverPtrange cfg k bend bendRes).2 : Int) =
        (calcQoverPtrangeBins cfg k bend bendRes).2) ∧
    ((calcQoverPtrange cfg k bend bendRes).1 ≤ cfg.houghNbinsPt - 1 ∧
      (calcQoverPtrange cfg k bend bendRes).2 ≤ cfg.houghNbinsPt - 1) := by
  have h0 := clampedMinBin_nonneg cfg k bend bendRes
  have h1 := clampedMaxBin_le cfg k bend bendRes
  unfold calcQoverPtrange
  rw [calcQoverPtrangeBins_eq]
  split_ifs with h
  · simp only [Int.toNat_of_nonneg, Int.toNat_zero]
    refine ⟨⟨?_, ?_⟩, ⟨?_, ?_⟩, ⟨?_, ?_⟩, ?_, ?_⟩ <;> omega
  · simp only
    refine ⟨⟨?_, ?_⟩, ⟨?_, ?_⟩, ⟨?_, ?_⟩, ?_, ?_⟩ <;> omega

/-- Witness of `calcQoverPtrange_bins_in_array`: 32 bins, `houghMinPt = 3`,
conversion factor 1, bend -7, resolution 1/2 (range below the array). -/
theorem calcQoverPtrange_bins_in_array_witness :
    1 ≤ (binCfg 32 3).houghNbinsPt ∧ 0 < (binCfg 32 3).houghMinPt ∧
    (calcQoverPtrange (binCfg 32 3) 1 (-7) (1 / 2)).1 ≤ (binCfg 32 3).houghNbinsPt - 1 ∧
    (calcQoverPtrange (binCfg 32 3) 1 (-7) (1 / 2)).2 ≤ (binCfg 32 3).houghNbinsPt - 1 :=
  ⟨by decide, by norm_num [binCfg],
    (calcQoverPtrange_bins_in_array (binCfg 32 3) 1 (-7) (1 / 2) (by decide)
      (by norm_num [binCfg])).2.2.2⟩

/-- C8 (refuted as stated): with 32 bins, `houghMinPt = 3`, conversion factor 1
and bend 0, the resolution 0 stores `(16, 16)`; with the resolution `10^9` both
`std::floor` values lie outside the range of `int`, the conversions give `-2^31`
and `(31, 0)` is stored, so the stored `min_qOverPt_bin_` increases and the
stored `max_qOverPt_bin_` decreases. -/
theorem calcQoverPtrange_mono_bendRes_fails :
    1 ≤ (binCfg 32 3).houghNbinsPt ∧ 0 < (binCfg 32 3).houghMinPt ∧ (0 : ℚ) ≤ 1 ∧
    (0 : ℚ) ≤ 0 ∧ (0 : ℚ) ≤ 1000000000 ∧
    calcQoverPtrange (binCfg 32 3) 1 0 0 = (16, 16) ∧
    calcQoverPtrange (binCfg 32 3) 1 0 1000000000 = (31, 0) ∧
    ¬ ((calcQoverPtrange (binCfg 32 3) 1 0 1000000000).1 ≤
        (calcQoverPtrange (binCfg 32 3) 1 0 0).1 ∧
      (calcQoverPtrange (binCfg 32 3) 1 0 0).2 ≤
        (calcQoverPtrange (binCfg 32 3) 1 0 1000000000).2) := by
  have h1 : calcQoverPtrange (binCfg 32 3) 1 0 0 = (16, 16) := by with_unfolding_all rfl
  have h2 : calcQoverPtrange (binCfg 32 3) 1 0 1000000000 = (31, 0) := by
    with_unfolding_all rfl
  refine ⟨by decide, by norm_num [binCfg], by norm_num, le_rfl, by norm_num, h1, h2, ?_⟩
  rw [h1, h2]
  decide

/-- C8 (amended): for `N ≥ 1` bins, `houghMinPt > 0`, conversion factor `k ≥ 0`
and resolutions `0 ≤ res1 ≤ res2` such that the two `std::floor` values computed
with `res2` at lines 127 and 128 lie within the range of `int`, the range stored
with `res2` contains the one stored with `res1`: the stored `min_qOverPt_bin_`
does not increase and the stored `max_qOverPt_bin_` does not decrease. -/
theorem calcQoverPtrange_mono_bendRes_in_int_range (cfg : Settings) (k bend res1 res2 : ℚ)
    (hN : 1 ≤ cfg.houghNbinsPt) (hP : 0 < cfg.houghMinPt) (hk : 0 ≤ k)
    (h0 : 0 ≤ res1) (h12 : res1 ≤ res2)
    (hlo : -2147483648 ≤ qOverPtFloor cfg (qOverPtMin k bend res2))
    (hhi : qOverPtFloor cfg (qOverPtMax k bend res2) < 2147483648) :
    (calcQoverPtrange cfg k bend res2).1 ≤ (calcQoverPtrange cfg k bend res1).1 ∧
    (calcQoverPtrange cfg k bend res1).2 ≤ (calcQoverPtrange cfg k bend res2).2 := by
  have f1 : qOverPtFloor cfg (qOverPtMin k bend res2) ≤
      qOverPtFloor cfg (qOverPtMin k bend res1) := by
    apply qOverPtFloor_mono cfg hN hP
    unfold qOverPtMin
    exact toFloat_mono (mul_le_mul_of_nonneg_left (toFloat_mono (by linarith)) hk)
  have f2 : qOverPtFloor cfg (qOverPtMin k bend res1) ≤
      qOverPtFloor cfg (qOverPtMax k bend res1) := by
    apply qOverPtFloor_mono cfg hN hP
    unfold qOverPtMin qOverPtMax
    exact toFloat_mono (mul_le_mul_of_nonneg_left (toFloat_mono (by linarith)) hk)
  have f3 : qOverPtFloor cfg (qOverPtMax k bend res1) ≤
      qOverPtFloor cfg (qOverPtMax k bend res2) := by
    apply qOverPtFloor_mono cfg hN hP
    unfold qOverPtMax
    exact toFloat_mono (mul_le_mul_of_nonneg_left (toFloat_mono (by linarith)) hk)
  have e1 : unclampedMinBin cfg k bend res2 = qOverPtFloor cfg (qOverPtMin k bend res2) :=
    floatToInt_of_range hlo (by omega)
  have e2 : unclampedMinBin cfg k bend res1 = qOverPtFloor cfg (qOverPtMin k bend res1) :=
    floatToInt_of_range (by omega) (by omega)
  have e3 : unclampedMaxBin cfg k bend res1 = qOverPtFloor cfg (qOverPtMax k bend res1) :=
    floatToInt_of_range (by omega) (by omega)
  have e4 : unclampedMaxBin cfg k bend res2 = qOverPtFloor cfg (qOverPtMax k bend res2) :=
    floatToInt_of_range (by omega) hhi
  have hmin : unclampedMinBin cfg k bend res2 ≤ unclampedMinBin cfg k bend res1 := by
    rw [e1, e2]; exact f1
  have hmax : unclampedMaxBin cfg k bend res1 ≤ unclampedMaxBin cfg k bend res2 := by
    rw [e3, e4]; exact f3
  have hcmin : clampedMinBin cfg k bend res2 ≤ clampedMinBin cfg k bend res1 :=
    max_le_max hmin le_rfl
  have hcmax : clampedMaxBin cfg k bend res1 ≤ clampedMaxBin cfg k bend res2 :=
    min_le_min hmax le_rfl
  have a1 := clampedMinBin_nonneg cfg k bend res1
  have a2 := clampedMinBin_nonneg cfg k bend res2
  have b1 := clampedMaxBin_le cfg k bend res1
  have b2 := clampedMaxBin_le cfg k bend res2
  rw [calcQoverPtrange_eq, calcQoverPtrange_eq]
  split_ifs with h2 h1 h1
  · simp
  · omega
  · dsimp only
    constructor <;> omega
  · dsimp only
    constructor <;> omega

/-- Witness of `calcQoverPtrange_mono_bendRes_in_int_range`: 32 bins,
`houghMinPt = 3`, conversion factor 1/10, bend 1, resolutions 1/2 and 5/4; the
`std::floor` values for the resolution 5/4 are 14 and 26. -/
theorem calcQoverPtrange_mono_bendRes_in_int_range_witness :
    1 ≤ (binCfg 32 3).houghNbinsPt ∧ 0 < (binCfg 32 3).houghMinPt ∧
    (0 : ℚ) ≤ 1 / 10 ∧ (0 : ℚ) ≤ 1 / 2 ∧ (1 / 2 : ℚ) ≤ 5 / 4 ∧
    qOverPtFloor (binCfg 32 3) (qOverPtMin (1 / 10) 1 (5 / 4)) = 14 ∧
    qOverPtFloor (binCfg 32 3) (qOverPtMax (1 / 10) 1 (5 / 4)) = 26 ∧
    (calcQoverPtrange (binCfg 32 3) (1 / 10) 1 (5 / 4)).1 ≤
      (calcQoverPtrange (binCfg 32 3) (1 / 10) 1 (1 / 2)).1 ∧
    (calcQoverPtrange (binCfg 32 3) (1 / 10) 1 (1 / 2)).2 ≤
      (calcQoverPtrange (binCfg 32 3) (1 / 10) 1 (5 / 4)).2 :=
  have hlo : qOverPtFloor (binCfg 32 3) (qOverPtMin (1 / 10) 1 (5 / 4)) = 14 := by
    with_unfolding_all rfl
  have hhi : qOverPtFloor (binCfg 32 3) (qOverPtMax (1 / 10) 1 (5 / 4)) = 26 := by
    with_unfolding_all rfl
  ⟨by decide, by norm_num [binCfg], by norm_num, by norm_num, by norm_num, hlo, hhi,
    calcQoverPtrange_mono_bendRes_in_int_range (binCfg 32 3) (1 / 10) 1 (1 / 2) (5 / 4)
      (by decide) (by norm_num [binCfg]) (by norm_num) (by norm_num) (by norm_num)
      (by rw [hlo]; decide) (by rw [hhi]; decide)⟩

/-! ## Claims on `Stub::layerIdReduced` -/

theorem encodeLayerId_valid (barrel : Bool) (iLayer iSide iDisk : Nat)
    (hb : barrel = true → 1 ≤ iLayer ∧ iLayer ≤ 6)
    (he : barrel = false → (iSide = 1 ∨ iSide = 2) ∧ 1 ≤ iDisk ∧ iDisk ≤ 5) :
    validLayerId (encodeLayerId barrel iLayer iSide iDisk) := by
  unfold validLayerId encodeLayerId
  cases barrel
  · have h := he rfl
    simp only [Bool.false_eq_true, if_false]
    omega
  · have h := hb rfl
    simp only [if_true]
    omega

/-- C6: for every valid encoded layer identifier (1 to 6, 11 to 15, 21 to 25)
`Stub::layerIdReduced` does not throw and returns a value in `[1, 7]`. -/
theorem layerIdReduced_valid_in_range (layerId_ : Nat) (h : validLayerId layerId_) :
    ∃ lay, layerIdReduced layerId_ = Except.ok lay ∧ 1 ≤ lay ∧ lay ≤ 7 := by
  have hle : layerId_ ≤ 25 := by unfold validLayerId at h; omega
  interval_cases layerId_ <;> simp [validLayerId] at h <;> simp [layerIdReduced]

/-- Witness of `layerIdReduced_valid_in_range`: endcap side 2, disk 4, encoded
as 24 by `Stub::setModuleInfo`. -/
theorem layerIdReduced_valid_in_range_witness :
    validLayerId (encodeLayerId false 0 2 4) ∧
      ∃ lay, layerIdReduced (encodeLayerId false 0 2 4) = Except.ok lay ∧ 1 ≤ lay ∧ lay ≤ 7 :=
  ⟨by decide, layerIdReduced_valid_in_range (encodeLayerId false 0 2 4) (by decide)⟩

/-- C7 (refuted as stated): the encoded layer identifier 7 is outside the valid
table, yet `Stub::layerIdReduced` returns 7 for it instead of throwing. -/
theorem layerIdReduced_seven_not_rejected :
    ¬ validLayerId 7 ∧ layerIdReduced 7 = Except.ok 7 := by
  constructor
  · decide
  · rfl

/-- C7 (amended): for every encoded layer identifier outside the valid table
other than 7, `Stub::layerIdReduced` throws the out-of-range exception. -/
theorem layerIdReduced_invalid_throws (layerId_ : Nat) (h : ¬ validLayerId layerId_)
    (h7 : layerId_ ≠ 7) :
    layerIdReduced layerId_ = Except.error "Stub: Reduced layer ID out of expected range" := by
  by_cases hle : layerId_ ≤ 25
  · interval_cases layerId_ <;> simp [validLayerId] at h h7 ⊢ <;> simp [layerIdReduced]
  · have h26 : 26 ≤ layerId_ := by omega
    unfold layerIdReduced
    simp only []
    have e1 : ¬ layerId_ < 20 := by omega
    have e2 : ¬ layerId_ - 10 = 6 := by omega
    have e3 : ¬ layerId_ - 10 = 5 := by omega
    have e4 : ¬ layerId_ - 10 = 4 := by omega
    have e5 : ¬ layerId_ - 10 = 3 := by omega
    have e6 : layerId_ - 10 > 10 := by omega
    have e7 : layerId_ - 10 - 8 < 1 ∨ layerId_ - 10 - 8 > 7 := by omega
    simp only [if_neg e1, if_neg e2, if_neg e3, if_neg e4, if_neg e5, if_pos e6, if_pos e7]

/-- Witness of `layerIdReduced_invalid_throws`: the identifier 16 (a sixth
disk of endcap side 1). -/
theorem layerIdReduced_invalid_throws_witness :
    ¬ validLayerId 16 ∧ 16 ≠ 7 ∧
      layerIdReduced 16 = Except.error "Stub: Reduced layer ID out of expected range" :=
  ⟨by decide, by decide, layerIdReduced_invalid_throws 16 (by decide) (by decide)⟩

/-! ## Claims on `Stub::setFrontend` -/

theorem setFrontend_frontendPass_iff {D : Type} (cfg : Settings) (acc : StubAccessors)
    (rejectStub : Bool) (s : Stub D) :
    (Stub.setFrontend cfg acc rejectStub s).frontendPass_ = true ↔
      (|acc.eta s.toStubData| ≤ cfg.maxStubEta ∧
        (cfg.killLowPtStubs = true →
          ¬ lowPtCutFails (qOverPtCut cfg) (acc.qOverPtOverBend s.toStubData) s.bendInFrontend_
              (acc.bendResInFrontend s.toStubData) ∧
            ¬ lowPtCutFails (qOverPtCut cfg) (acc.qOverPtOverBend s.toStubData) s.bend_
              (acc.bendRes s.toStubData)) ∧
        rejectStub = false) := by
  by_cases he : cfg.maxStubEta < |acc.eta s.toStubData| <;>
  by_cases h1 : lowPtCutFails (qOverPtCut cfg) (acc.qOverPtOverBend s.toStubData)
      s.bendInFrontend_ (acc.bendResInFrontend s.toStubData) <;>
  by_cases h2 : lowPtCutFails (qOverPtCut cfg) (acc.qOverPtOverBend s.toStubData) s.bend_
      (acc.bendRes s.toStubData) <;>
  cases hk : cfg.killLowPtStubs <;> cases rejectStub <;>
  simp [Stub.setFrontend, he, h1, h2, hk, not_le.mpr, not_lt.mp]

theorem lowPtCutFails_of_raised_cut {c₁ c₂ k b res : ℚ} (hk : 0 < k) (hc : c₁ ≤ c₂)
    (h : lowPtCutFails c₂ k b res) : lowPtCutFails c₁ k b res := by
  unfold lowPtCutFails at h ⊢
  rw [if_neg hk.ne'] at h ⊢
  have hq : toFloat (c₁ / k) ≤ toFloat (c₂ / k) :=
    toFloat_mono (div_le_div_of_nonneg_right hc hk.le)
  exact lt_of_le_of_lt hq h

/-- C9 (refuted as stated): a stub of bend 5, resolution 5/4 and conversion
factor 1/10 is rejected under the cut `1/3` (`houghMinPt = 3`) and accepted
under the raised cut `1/2` (`houghMinPt = 2`). -/
theorem setFrontend_raised_cut_accepts :
    (binCfg 32 3).killLowPtStubs = true ∧
    0 < gridAcc.qOverPtOverBend (gridStub (binCfg 32 3) 5).toStubData ∧
    1 / (binCfg 32 3).houghMinPt ≤ 1 / (binCfg 32 2).houghMinPt ∧
    (Stub.setFrontend (binCfg 32 3) gridAcc false (gridStub (binCfg 32 3) 5)).frontendPass_ = false ∧
    (Stub.setFrontend (binCfg 32 2) gridAcc false (gridStub (binCfg 32 3) 5)).frontendPass_ = true := by
  refine ⟨rfl, ?_, ?_, ?_, ?_⟩
  · norm_num [gridAcc, gridStub, gridData]
  · norm_num [binCfg]
  · with_unfolding_all rfl
  · with_unfolding_all rfl

/-- C9 (amended): with the kill-low-Pt policy enabled, conversion factor
`k > 0` and cuts `1/P1 ≤ 1/P2` derived from `houghMinPt` values `P1, P2 > 0`,
a stub that `Stub::setFrontend` rejects under the raised cut `1/P2` is also
rejected under the cut `1/P1`. -/
theorem setFrontend_reject_of_lowered_cut {D : Type} (cfg : Settings) (acc : StubAccessors)
    (rejectStub : Bool) (s : Stub D) (P1 P2 : ℚ) (_hP1 : 0 < P1) (_hP2 : 0 < P2)
    (hk : 0 < acc.qOverPtOverBend s.toStubData) (_hkill : cfg.killLowPtStubs = true)
    (hcut : 1 / P1 ≤ 1 / P2)
    (hrej : (Stub.setFrontend { cfg with houghMinPt := P2 } acc rejectStub s).frontendPass_ =
      false) :
    (Stub.setFrontend { cfg with houghMinPt := P1 } acc rejectStub s).frontendPass_ = false := by
  by_contra hpass
  have hpass' : (Stub.setFrontend { cfg with houghMinPt := P1 } acc rejectStub s).frontendPass_ =
      true := by simpa using hpass
  rw [setFrontend_frontendPass_iff] at hpass'
  have hc : qOverPtCut { cfg with houghMinPt := P1 } ≤ qOverPtCut { cfg with houghMinPt := P2 } :=
    toFloat_mono (toDouble_mono hcut)
  have h2 : (Stub.setFrontend { cfg with houghMinPt := P2 } acc rejectStub s).frontendPass_ =
      true := by
    rw [setFrontend_frontendPass_iff]
    obtain ⟨he, hcuts, hr⟩ := hpass'
    refine ⟨he, fun hkl => ?_, hr⟩
    obtain ⟨c1, c2⟩ := hcuts hkl
    exact ⟨fun hf => c1 (lowPtCutFails_of_raised_cut hk hc hf),
      fun hf => c2 (lowPtCutFails_of_raised_cut hk hc hf)⟩
  rw [h2] at hrej
  exact Bool.noConfusion hrej

/-- Witness of `setFrontend_reject_of_lowered_cut`: a stub of bend 8,
resolution 5/4 and conversion factor 1/10, rejected under the cut `1/2`
(`houghMinPt = 2`), is rejected under the cut `1/3` (`houghMinPt = 3`). -/
theorem setFrontend_reject_of_lowered_cut_witness :
    (binCfg 32 3).killLowPtStubs = true ∧ (1 / 3 : ℚ) ≤ 1 / 2 ∧
    (Stub.setFrontend { binCfg 32 3 with houghMinPt := 2 } gridAcc false
      (gridStub (binCfg 32 3) 8)).frontendPass_ = false ∧
    (Stub.setFrontend { binCfg 32 3 with houghMinPt := 3 } gridAcc false
      (gridStub (binCfg 32 3) 8)).frontendPass_ = false :=
  ⟨rfl, by norm_num, by with_unfolding_all rfl,
    setFrontend_reject_of_lowered_cut (binCfg 32 3) gridAcc false (gridStub (binCfg 32 3) 8) 3 2
      (by norm_num) (by norm_num) (by norm_num [gridAcc, gridStub, gridData]) rfl (by norm_num)
      (by with_unfolding_all rfl)⟩

/-! ## Claims on the digitisation state machine -/

theorem digitizeForGPinput_flags {D : Type} (cfg : Settings) (ops : DigitalStubOps D)
    (iPhiSec : Nat) (s : Stub D) (h : cfg.enableDigitize = true) :
    (Stub.digitizeForGPinput cfg ops iPhiSec s).digitizedForGPinput_ = true ∧
      (Stub.digitizeForGPinput cfg ops iPhiSec s).digitizedForHTinput_ = false := by
  unfold Stub.digitizeForGPinput
  rw [if_pos h]
  cases hg : s.digitizedForGPinput_ <;> simp [hg]
  split_ifs <;> simp [hg]

theorem digitizeForGPinput_digiStateOK {D : Type} (cfg : Settings) (ops : DigitalStubOps D)
    (iPhiSec : Nat) (s : Stub D) (h : s.digiStateOK) :
    (Stub.digitizeForGPinput cfg ops iPhiSec s).digiStateOK := by
  cases he : cfg.enableDigitize
  · unfold Stub.digitizeForGPinput
    simpa [he] using h
  · obtain ⟨h1, h2⟩ := digitizeForGPinput_flags cfg ops iPhiSec s he
    exact Or.inr (Or.inl ⟨h1, h2⟩)

theorem digitizeForHTinput_digiStateOK {D : Type} (cfg : Settings) (acc : StubAccessors)
    (ops : DigitalStubOps D) (iPhiSec : Nat) (s : Stub D) (h : s.digiStateOK) :
    (Stub.digitizeForHTinput cfg acc ops iPhiSec s).digiStateOK := by
  cases he : cfg.enableDigitize
  · unfold Stub.digitizeForHTinput
    simpa [he] using h
  · obtain ⟨h1, _⟩ := digitizeForGPinput_flags cfg ops iPhiSec s he
    unfold Stub.digitizeForHTinput
    rw [if_pos he]
    split_ifs with hc hf
    · refine Or.inr (Or.inr ⟨?_, rfl⟩)
      simpa [Stub.calcQoverPtrange, Stub.setRhoParameter] using h1
    · refine Or.inr (Or.inr ⟨?_, rfl⟩)
      simpa using h1
    · exact h

theorem reset_digitize_digiStateOK {D : Type} (cfg : Settings) (acc : StubAccessors)
    (ops : DigitalStubOps D) (s : Stub D) (h : s.digiStateOK) :
    (Stub.reset_digitize cfg acc ops s).digiStateOK := by
  unfold Stub.reset_digitize
  split_ifs <;> first | exact h | exact Or.inl ⟨rfl, rfl⟩

theorem runCalls_digiStateOK {D : Type} (cfg : Settings) (acc : StubAccessors)
    (ops : DigitalStubOps D) (calls : List DigiCall) (s : Stub D) (h : s.digiStateOK) :
    (runCalls cfg acc ops calls s).digiStateOK := by
  induction calls generalizing s with
  | nil => exact h
  | cons c cs ih =>
    have hstep : (c.apply cfg acc ops s).digiStateOK := by
      cases c with
      | forGP i => exact digitizeForGPinput_digiStateOK cfg ops i s h
      | forHT i => exact digitizeForHTinput_digiStateOK cfg acc ops i s h
      | reset => exact reset_digitize_digiStateOK cfg acc ops s h
    exact ih (c.apply cfg acc ops s) hstep

/-- C10: in every state reached from a freshly constructed stub (both flags
false) by any sequence of `digitizeForGPinput`, `digitizeForHTinput` and
`reset_digitize` calls, `digitizedForHTinput_` implies `digitizedForGPinput_`,
and the stub is in one of the states Raw, GP only, GP and HT. -/
theorem runCalls_HT_implies_GP {D : Type} (cfg : Settings) (acc : StubAccessors)
    (ops : DigitalStubOps D) (calls : List DigiCall) (s : Stub D) (hraw : s.isRaw) :
    ((runCalls cfg acc ops calls s).digitizedForHTinput_ = true →
      (runCalls cfg acc ops calls s).digitizedForGPinput_ = true) ∧
    (runCalls cfg acc ops calls s).digiStateOK := by
  have hok := runCalls_digiStateOK cfg acc ops calls s (Or.inl hraw)
  refine ⟨fun hHT => ?_, hok⟩
  rcases hok with ⟨_, h2⟩ | ⟨_, h2⟩ | ⟨h1, _⟩
  · rw [h2] at hHT; exact Bool.noConfusion hHT
  · rw [h2] at hHT; exact Bool.noConfusion hHT
  · exact h1

/-- Witness of `runCalls_HT_implies_GP`: a constructed stub digitised for the HT
in sector 5, for the GP in sector 9, reset, and digitised for the HT in sector 2
ends with both flags set. -/
theorem runCalls_HT_implies_GP_witness :
    (gridStub (binCfg 32 3) 1).isRaw ∧
    (runCalls (binCfg 32 3) gridAcc gridOps
      [DigiCall.forHT 5, DigiCall.forGP 9, DigiCall.reset, DigiCall.forHT 2]
      (gridStub (binCfg 32 3) 1)).digitizedForHTinput_ = true ∧
    (runCalls (binCfg 32 3) gridAcc gridOps
      [DigiCall.forHT 5, DigiCall.forGP 9, DigiCall.reset, DigiCall.forHT 2]
      (gridStub (binCfg 32 3) 1)).digitizedForGPinput_ = true :=
  have hHT : (runCalls (binCfg 32 3) gridAcc gridOps
      [DigiCall.forHT 5, DigiCall.forGP 9, DigiCall.reset, DigiCall.forHT 2]
      (gridStub (binCfg 32 3) 1)).digitizedForHTinput_ = true := by with_unfolding_all rfl
  ⟨⟨rfl, rfl⟩, hHT,
    (runCalls_HT_implies_GP (binCfg 32 3) gridAcc gridOps
      [DigiCall.forHT 5, DigiCall.forGP 9, DigiCall.reset, DigiCall.forHT 2]
      (gridStub (binCfg 32 3) 1) ⟨rfl, rfl⟩).1 hHT⟩

/-- C5: calling `digitizeForGPinput(iPhiSec)` twice in a row leaves the stub
(flags, coordinates, bend, dphi, rho, bin range and digital stub) exactly as
calling it once, given that `DigitalStub::makeGPinput` records the octant of
the sector it was called with. -/
theorem digitizeForGPinput_idempotent {D : Type} (cfg : Settings) (ops : DigitalStubOps D)
    (hoct : ops.RecordsOctant) (iPhiSec : Nat) (s : Stub D) :
    Stub.digitizeForGPinput cfg ops iPhiSec (Stub.digitizeForGPinput cfg ops iPhiSec s) =
      Stub.digitizeForGPinput cfg ops iPhiSec s := by
  have ho := hoct s.digitalStub_ iPhiSec
  cases he : cfg.enableDigitize
  · simp [Stub.digitizeForGPinput, he]
  · cases hg : s.digitizedForGPinput_
    · simp [Stub.digitizeForGPinput, he, hg, ho]
    · by_cases hc : ops.iGetOctant s.digitalStub_ iPhiSec = ops.iDigi_Octant s.digitalStub_
      · simp [Stub.digitizeForGPinput, he, hg, hc]
      · simp [Stub.digitizeForGPinput, he, hg, hc, ho]

/-- Witness of `digitizeForGPinput_idempotent`: the concrete digital stub
records the octant, and a constructed stub digitised twice for sector 5 equals
the stub digitised once. -/
theorem digitizeForGPinput_idempotent_witness :
    gridOps.RecordsOctant ∧
    Stub.digitizeForGPinput (binCfg 32 3) gridOps 5
        (Stub.digitizeForGPinput (binCfg 32 3) gridOps 5 (gridStub (binCfg 32 3) 1)) =
      Stub.digitizeForGPinput (binCfg 32 3) gridOps 5 (gridStub (binCfg 32 3) 1) :=
  ⟨fun _ _ => rfl,
    digitizeForGPinput_idempotent (binCfg 32 3) gridOps (fun _ _ => rfl) 5
      (gridStub (binCfg 32 3) 1)⟩

/-- C4: for a stub as the constructor leaves it (Raw, bin range computed,
original values recorded), every sector and every firmware type,
`digitizeForHTinput(iPhiSec)` followed by `reset_digitize()` restores phi, r, z,
bend, dphi, rho and the stored bin range and leaves the stub Raw, given that
`DigitalStub` keeps the recorded original values. -/
theorem digitizeThenReset_restores {D : Type} (cfg : Settings) (acc : StubAccessors)
    (ops : DigitalStubOps D) (hkeep : ops.KeepsOriginals) (iPhiSec : Nat) (s : Stub D)
    (hs : s.AsConstructed cfg acc ops) :
    (digitizeThenReset cfg acc ops iPhiSec s).phi_ = s.phi_ ∧
    (digitizeThenReset cfg acc ops iPhiSec s).r_ = s.r_ ∧
    (digitizeThenReset cfg acc ops iPhiSec s).z_ = s.z_ ∧
    (digitizeThenReset cfg acc ops iPhiSec s).bend_ = s.bend_ ∧
    (digitizeThenReset cfg acc ops iPhiSec s).dphi_ = s.dphi_ ∧
    (digitizeThenReset cfg acc ops iPhiSec s).rhoParameter = s.rhoParameter ∧
    (digitizeThenReset cfg acc ops iPhiSec s).min_qOverPt_bin_ = s.min_qOverPt_bin_ ∧
    (digitizeThenReset cfg acc ops iPhiSec s).max_qOverPt_bin_ = s.max_qOverPt_bin_ ∧
    (digitizeThenReset cfg acc ops iPhiSec s).isRaw := by
  obtain ⟨⟨hg, hh⟩, hbins, hphi, hr, hz, hb, hd, hrho⟩ := hs
  have hmin := congrArg Prod.fst hbins
  have hmax := congrArg Prod.snd hbins
  simp only at hmin hmax
  cases he : cfg.enableDigitize
  · simp [digitizeThenReset, Stub.reset_digitize, Stub.digitizeForHTinput, he, Stub.isRaw, hg, hh]
  · obtain ⟨⟨g1, g2, g3, g4, g5, g6⟩, -⟩ := hkeep s.digitalStub_ iPhiSec
    obtain ⟨-, ⟨t1, t2, t3, t4, t5, t6⟩⟩ := hkeep (ops.makeGPinput s.digitalStub_ iPhiSec) iPhiSec
    by_cases hf : cfg.firmwareType = 1
    · simp [digitizeThenReset, Stub.reset_digitize, Stub.digitizeForHTinput,
        Stub.digitizeForGPinput, he, hf, Stub.isRaw, hg, hh, g1, g2, g3, g4, t1, t2, t3, t4,
        hphi, hr, hz, hb, Stub.rhoParameter]
    · simp [digitizeThenReset, Stub.reset_digitize, Stub.digitizeForHTinput,
        Stub.digitizeForGPinput, he, hf, Stub.isRaw, hg, hh, g1, g2, g3, g4, g5, g6,
        t1, t2, t3, t4, t5, t6, hphi, hr, hz, hb, hd, hrho, Stub.rhoParameter,
        Stub.setRhoParameter, Stub.calcQoverPtrange]
      exact ⟨hmin.symm, hmax.symm⟩

/-- Witness of `digitizeThenReset_restores`: the concrete digital stub keeps the
original values, and a constructed stub of bend 1 digitised for sector 5 and
reset has its members restored. -/
theorem digitizeThenReset_restores_witness :
    gridOps.KeepsOriginals ∧ (gridStub (binCfg 32 3) 1).AsConstructed (binCfg 32 3) gridAcc gridOps ∧
    (digitizeThenReset (binCfg 32 3) gridAcc gridOps 5 (gridStub (binCfg 32 3) 1)).phi_ =
      (gridStub (binCfg 32 3) 1).phi_ ∧
    (digitizeThenReset (binCfg 32 3) gridAcc gridOps 5 (gridStub (binCfg 32 3) 1)).min_qOverPt_bin_ =
      (gridStub (binCfg 32 3) 1).min_qOverPt_bin_ ∧
    (digitizeThenReset (binCfg 32 3) gridAcc gridOps 5 (gridStub (binCfg 32 3) 1)).isRaw :=
  have hkeep : gridOps.KeepsOriginals :=
    fun _ _ => ⟨⟨rfl, rfl, rfl, rfl, rfl, rfl⟩, ⟨rfl, rfl, rfl, rfl, rfl, rfl⟩⟩
  have hs : (gridStub (binCfg 32 3) 1).AsConstructed (binCfg 32 3) gridAcc gridOps :=
    ⟨⟨rfl, rfl⟩, rfl, rfl, rfl, rfl, rfl, rfl, rfl⟩
  have h := digitizeThenReset_restores (binCfg 32 3) gridAcc gridOps hkeep 5
    (gridStub (binCfg 32 3) 1) hs
  ⟨hkeep, hs, h.1, h.2.2.2.2.2.2.1, h.2.2.2.2.2.2.2.2⟩

/-! ## Further claims on `Stub::calcQoverPtrange` -/

theorem construct_of_outside {D : Type} (cfg : Settings) (acc : StubAccessors)
    (dc : DataCorrection) (di : DigitalStubInit D) (inp : StubInput)
    (h : outsideTrackerVolume cfg inp) :
    ∃ e, Stub.construct cfg acc dc di inp = Except.error e := by
  unfold outsideTrackerVolume at h
  unfold Stub.construct
  simp only []
  rw [if_pos h]
  exact ⟨_, rfl⟩

theorem construct_layerId {D : Type} (cfg : Settings) (acc : StubAccessors) (rejectStub : Bool)
    (s : Stub D) :
    (Stub.calcQoverPtrange cfg acc (Stub.setFrontend cfg acc rejectStub s)).layerId_ =
      s.layerId_ := by
  unfold Stub.calcQoverPtrange Stub.setFrontend
  simp only []
  split_ifs <;> rfl

theorem construct_bends {D : Type} (cfg : Settings) (acc : StubAccessors) (rejectStub : Bool)
    (s : Stub D) :
    (Stub.calcQoverPtrange cfg acc (Stub.setFrontend cfg acc rejectStub s)).bend_ = s.bend_ ∧
    (Stub.calcQoverPtrange cfg acc (Stub.setFrontend cfg acc rejectStub s)).bendInFrontend_ =
      s.bendInFrontend_ ∧
    (Stub.calcQoverPtrange cfg acc (Stub.setFrontend cfg acc rejectStub s)).numMergedBend_ =
      s.numMergedBend_ := by
  unfold Stub.calcQoverPtrange Stub.setFrontend
  simp only []
  split_ifs <;> exact ⟨rfl, rfl, rfl⟩

theorem construct_of_inside_layer_error {D : Type} (cfg : Settings) (acc : StubAccessors)
    (dc : DataCorrection) (di : DigitalStubInit D) (inp : StubInput)
    (h : ¬ outsideTrackerVolume cfg inp) (e : String)
    (hl : layerIdReduced (encodeLayerId inp.isBarrel inp.iLayer inp.iSide inp.iDisk) =
      Except.error e) :
    Stub.construct cfg acc dc di inp = Except.error e := by
  unfold outsideTrackerVolume at h
  unfold Stub.construct
  simp only []
  rw [if_neg h, construct_layerId]
  simp only [setModuleInfo]
  rw [hl]

theorem construct_of_inside_layer_ok {D : Type} (cfg : Settings) (acc : StubAccessors)
    (dc : DataCorrection) (di : DigitalStubInit D) (inp : StubInput)
    (h : ¬ outsideTrackerVolume cfg inp) (reduced : Nat)
    (hl : layerIdReduced (encodeLayerId inp.isBarrel inp.iLayer inp.iSide inp.iDisk) =
      Except.ok reduced) :
    ∃ s, Stub.construct cfg acc dc di inp = Except.ok s ∧
      s.bendInFrontend_ = frontendBend inp ∧
      s.bend_ = (if cfg.bendResReduced then
        (degradeResolution dc inp.isBarrel (frontendBend inp) inp.iLayer inp.iRing).1
        else frontendBend inp) ∧
      s.numMergedBend_ = (if cfg.bendResReduced then
        (degradeResolution dc inp.isBarrel (frontendBend inp) inp.iLayer inp.iRing).2.2
        else 1) := by
  unfold outsideTrackerVolume at h
  unfold Stub.construct
  simp only []
  rw [if_neg h, construct_layerId]
  simp only [setModuleInfo]
  rw [hl]
  refine ⟨_, rfl, ?_, ?_, ?_⟩
  · exact (construct_bends cfg acc _ _).2.1
  · exact (construct_bends cfg acc _ _).1
  · exact (construct_bends cfg acc _ _).2.2

/-- C12 (refuted as stated): a hit at radius 50 and z = 30, inside the tracker
volume (radii 20 to 110, half length 270), in a barrel module of layer 8 makes
the constructor fail, through the exception of `Stub::layerIdReduced`. -/
theorem construct_fails_inside_volume :
    ¬ outsideTrackerVolume (binCfg 32 3) (gridInput 8 50) ∧
    Stub.construct (binCfg 32 3) gridAcc gridCorrection gridInit (gridInput 8 50) =
      Except.error "Stub: Reduced layer ID out of expected range" ∧
    ¬ ((∃ e, Stub.construct (binCfg 32 3) gridAcc gridCorrection gridInit (gridInput 8 50) =
        Except.error e) ↔ outsideTrackerVolume (binCfg 32 3) (gridInput 8 50)) := by
  have hin : ¬ outsideTrackerVolume (binCfg 32 3) (gridInput 8 50) := by
    norm_num [outsideTrackerVolume, binCfg, gridInput, abs_of_pos]
  have herr := construct_of_inside_layer_error (binCfg 32 3) gridAcc gridCorrection gridInit
    (gridInput 8 50) hin "Stub: Reduced layer ID out of expected range" rfl
  refine ⟨hin, herr, fun hiff => hin (hiff.mp ⟨_, herr⟩)⟩

/-- C12 (amended): the constructor fails with an exception if and only if the
hit position is outside the configured tracker volume (`r < trackerInnerRadius`,
`r > trackerOuterRadius` or `|z| > trackerHalfLength`) or `Stub::layerIdReduced`
throws for the encoded layer of the module; in particular every hit with radius
below the configured minimum fails. -/
theorem construct_fails_iff {D : Type} (cfg : Settings) (acc : StubAccessors)
    (dc : DataCorrection) (di : DigitalStubInit D) (inp : StubInput) :
    ((∃ e, Stub.construct cfg acc dc di inp = Except.error e) ↔
      (outsideTrackerVolume cfg inp ∨
        ∃ e, layerIdReduced (encodeLayerId inp.isBarrel inp.iLayer inp.iSide inp.iDisk) =
          Except.error e)) ∧
    (inp.pos_perp < cfg.trackerInnerRadius →
      ∃ e, Stub.construct cfg acc dc di inp = Except.error e) := by
  constructor
  · constructor
    · rintro ⟨e, he⟩
      by_cases hout : outsideTrackerVolume cfg inp
      · exact Or.inl hout
      · right
        cases hl : layerIdReduced (encodeLayerId inp.isBarrel inp.iLayer inp.iSide inp.iDisk) with
        | error e' => exact ⟨e', rfl⟩
        | ok reduced =>
          obtain ⟨t, ht, _⟩ := construct_of_inside_layer_ok cfg acc dc di inp hout reduced hl
          rw [ht] at he
          exact Except.noConfusion he
    · intro h
      by_cases hout : outsideTrackerVolume cfg inp
      · exact construct_of_outside cfg acc dc di inp hout
      · rcases h with h | ⟨e, he⟩
        · exact absurd h hout
        · exact ⟨e, construct_of_inside_layer_error cfg acc dc di inp hout e he⟩
  · intro h
    exact construct_of_outside cfg acc dc di inp (Or.inl h)

theorem digitizeForHTinput_skip {D : Type} (cfg : Settings) (acc : StubAccessors)
    (ops : DigitalStubOps D) (iPhiSec : Nat) (s : Stub D)
    (hHT : s.digitizedForHTinput_ = true) (hsec : ops.iDigi_PhiSec s.digitalStub_ = iPhiSec) :
    Stub.digitizeForHTinput cfg acc ops iPhiSec s = s := by
  unfold Stub.digitizeForHTinput
  simp [hHT, hsec]

theorem digitizeForHTinput_post {D : Type} (cfg : Settings) (acc : StubAccessors)
    (ops : DigitalStubOps D) (hrec : ops.RecordsPhiSec) (iPhiSec : Nat) (s : Stub D)
    (he : cfg.enableDigitize = true) :
    (Stub.digitizeForHTinput cfg acc ops iPhiSec s).digitizedForHTinput_ = true ∧
      ops.iDigi_PhiSec (Stub.digitizeForHTinput cfg acc ops iPhiSec s).digitalStub_ =
        iPhiSec := by
  have hr : ∀ (d : D) (j : Nat), ops.iDigi_PhiSec (ops.makeHTinput d j) = j := hrec
  unfold Stub.digitizeForHTinput
  rw [if_pos he]
  by_cases hc : s.digitizedForHTinput_ = true ∧ iPhiSec = ops.iDigi_PhiSec s.digitalStub_
  · simp [hc.1, ← hc.2]
  · have hc' : (!(s.digitizedForHTinput_ && iPhiSec == ops.iDigi_PhiSec s.digitalStub_)) =
        true := by
      cases hh : s.digitizedForHTinput_
      · simp
      · have hne : ¬ iPhiSec = ops.iDigi_PhiSec s.digitalStub_ := fun h => hc ⟨hh, h⟩
        simp [hne]
    rw [if_pos hc']
    by_cases hf : cfg.firmwareType = 1
    · simp [hf, hr]
    · simp [hf, hr, Stub.calcQoverPtrange, Stub.setRhoParameter]

/-- C14: calling `digitizeForHTinput(iPhiSec)` twice in a row leaves the stub
(flags, coordinates, bend, dphi, rho, bin range and digital stub) exactly as
calling it once, given that `DigitalStub::makeHTinput` records the sector it was
called with. -/
theorem digitizeForHTinput_idempotent {D : Type} (cfg : Settings) (acc : StubAccessors)
    (ops : DigitalStubOps D) (hrec : ops.RecordsPhiSec) (iPhiSec : Nat) (s : Stub D) :
    Stub.digitizeForHTinput cfg acc ops iPhiSec (Stub.digitizeForHTinput cfg acc ops iPhiSec s) =
      Stub.digitizeForHTinput cfg acc ops iPhiSec s := by
  cases he : cfg.enableDigitize
  · simp [Stub.digitizeForHTinput, he]
  · obtain ⟨h1, h2⟩ := digitizeForHTinput_post cfg acc ops hrec iPhiSec s he
    exact digitizeForHTinput_skip cfg acc ops iPhiSec _ h1 h2

/-- Witness of `digitizeForHTinput_idempotent`: the concrete digital stub records
the sector, and a constructed stub digitised twice for sector 5 equals the stub
digitised once. -/
theorem digitizeForHTinput_idempotent_witness :
    gridOps.RecordsPhiSec ∧
    Stub.digitizeForHTinput (binCfg 32 3) gridAcc gridOps 5
        (Stub.digitizeForHTinput (binCfg 32 3) gridAcc gridOps 5 (gridStub (binCfg 32 3) 1)) =
      Stub.digitizeForHTinput (binCfg 32 3) gridAcc gridOps 5 (gridStub (binCfg 32 3) 1) :=
  ⟨fun _ _ => rfl,
    digitizeForHTinput_idempotent (binCfg 32 3) gridAcc gridOps (fun _ _ => rfl) 5
      (gridStub (binCfg 32 3) 1)⟩

/-- C17 (refuted as stated): a constructed stub digitised for the HT in sector 5
is digitised for both processors with sector 5, and `digitizeForGPinput(5)` then
clears its flag `digitizedForHTinput_`. -/
theorem digitizeForGPinput_clears_HT_flag :
    (Stub.digitizeForHTinput (binCfg 32 3) gridAcc gridOps 5
      (gridStub (binCfg 32 3) 1)).digitizedForBothIn gridOps 5 ∧
    (Stub.digitizeForGPinput (binCfg 32 3) gridOps 5
      (Stub.digitizeForHTinput (binCfg 32 3) gridAcc gridOps 5
        (gridStub (binCfg 32 3) 1))).digitizedForHTinput_ = false ∧
    (Stub.digitizeForGPinput (binCfg 32 3) gridOps 5
      (Stub.digitizeForHTinput (binCfg 32 3) gridAcc gridOps 5
        (gridStub (binCfg 32 3) 1))).digitizedForHTinput_ ≠
      (Stub.digitizeForHTinput (binCfg 32 3) gridAcc gridOps 5
        (gridStub (binCfg 32 3) 1)).digitizedForHTinput_ := by
  have hboth : (Stub.digitizeForHTinput (binCfg 32 3) gridAcc gridOps 5
      (gridStub (binCfg 32 3) 1)).digitizedForBothIn gridOps 5 :=
    ⟨by with_unfolding_all rfl, by with_unfolding_all rfl, by with_unfolding_all rfl,
      by with_unfolding_all rfl⟩
  have hclr : (Stub.digitizeForGPinput (binCfg 32 3) gridOps 5
      (Stub.digitizeForHTinput (binCfg 32 3) gridAcc gridOps 5
        (gridStub (binCfg 32 3) 1))).digitizedForHTinput_ = false := by
    with_unfolding_all rfl
  refine ⟨hboth, hclr, ?_⟩
  rw [hclr, hboth.2.1]
  decide

/-- C17 (amended): for every stub digitised for both processors with sector
`iPhiSec`, `digitizeForGPinput(iPhiSec)` leaves every field and the flag
`digitizedForGPinput_` unchanged; with digitisation enabled it clears the flag
`digitizedForHTinput_`, with digitisation disabled it changes nothing. -/
theorem digitizeForGPinput_on_both {D : Type} (cfg : Settings) (ops : DigitalStubOps D)
    (iPhiSec : Nat) (s : Stub D) (hboth : s.digitizedForBothIn ops iPhiSec) :
    Stub.digitizeForGPinput cfg ops iPhiSec s =
      if cfg.enableDigitize then { s with digitizedForHTinput_ := false } else s := by
  obtain ⟨hg, _, ho, _⟩ := hboth
  unfold Stub.digitizeForGPinput
  cases he : cfg.enableDigitize
  · simp
  · simp [hg, ho]

/-- Witness of `digitizeForGPinput_on_both`: a constructed stub digitised for
the HT in sector 5, then digitised for the GP in sector 5. -/
theorem digitizeForGPinput_on_both_witness :
    (Stub.digitizeForHTinput (binCfg 32 3) gridAcc gridOps 5
      (gridStub (binCfg 32 3) 1)).digitizedForBothIn gridOps 5 ∧
    Stub.digitizeForGPinput (binCfg 32 3) gridOps 5
        (Stub.digitizeForHTinput (binCfg 32 3) gridAcc gridOps 5 (gridStub (binCfg 32 3) 1)) =
      (if (binCfg 32 3).enableDigitize then
        { Stub.digitizeForHTinput (binCfg 32 3) gridAcc gridOps 5 (gridStub (binCfg 32 3) 1) with
          digitizedForHTinput_ := false }
      else Stub.digitizeForHTinput (binCfg 32 3) gridAcc gridOps 5 (gridStub (binCfg 32 3) 1)) :=
  have hboth : (Stub.digitizeForHTinput (binCfg 32 3) gridAcc gridOps 5
      (gridStub (binCfg 32 3) 1)).digitizedForBothIn gridOps 5 :=
    ⟨by with_unfolding_all rfl, by with_unfolding_all rfl, by with_unfolding_all rfl,
      by with_unfolding_all rfl⟩
  ⟨hboth, digitizeForGPinput_on_both (binCfg 32 3) gridOps 5 _ hboth⟩

theorem digitizeForGPinput_sameHoughMembers {D : Type} (cfg : Settings)
    (ops : DigitalStubOps D) (iPhiSec : Nat) (s : Stub D) :
    s.sameHoughMembers (Stub.digitizeForGPinput cfg ops iPhiSec s) := by
  unfold Stub.digitizeForGPinput
  split_ifs <;> exact ⟨rfl, rfl, rfl, rfl⟩

/-- C20: with the daisy-chain firmware (`firmwareType = 1`), for every stub and
sector, `digitizeForGPinput`, `digitizeForHTinput` and `reset_digitize` leave
`dphi_`, the rho parameter and the stored bin range unchanged. -/
theorem daisyChain_keeps_hough_members {D : Type} (cfg : Settings) (acc : StubAccessors)
    (ops : DigitalStubOps D) (hf : cfg.firmwareType = 1) (iPhiSec : Nat) (s : Stub D) :
    s.sameHoughMembers (Stub.digitizeForGPinput cfg ops iPhiSec s) ∧
    s.sameHoughMembers (Stub.digitizeForHTinput cfg acc ops iPhiSec s) ∧
    s.sameHoughMembers (Stub.reset_digitize cfg acc ops s) := by
  have hgp := digitizeForGPinput_sameHoughMembers cfg ops iPhiSec s
  have hne : (cfg.firmwareType != 1) = false := by simp [hf]
  refine ⟨hgp, ?_, ?_⟩
  · unfold Stub.digitizeForHTinput
    simp only [hne, Bool.false_eq_true, if_false]
    split_ifs
    · exact hgp
    · exact ⟨rfl, rfl, rfl, rfl⟩
    · exact ⟨rfl, rfl, rfl, rfl⟩
  · unfold Stub.reset_digitize
    simp only [hne, Bool.false_eq_true, if_false]
    split_ifs <;> exact ⟨rfl, rfl, rfl, rfl⟩

/-- Witness of `daisyChain_keeps_hough_members`: the daisy-chain configuration
with 32 bins and a constructed stub of bend 11/10, digitised for the HT in
sector 5. -/
theorem daisyChain_keeps_hough_members_witness :
    ({ binCfg 32 3 with firmwareType := 1 } : Settings).firmwareType = 1 ∧
    (gridStub (binCfg 32 3) (11 / 10)).sameHoughMembers
      (Stub.digitizeForHTinput { binCfg 32 3 with firmwareType := 1 } gridAcc gridOps 5
        (gridStub (binCfg 32 3) (11 / 10))) :=
  ⟨rfl, (daisyChain_keeps_hough_members { binCfg 32 3 with firmwareType := 1 } gridAcc gridOps
    rfl 5 (gridStub (binCfg 32 3) (11 / 10))).2.1⟩

theorem digitizeForHTinput_binRange {D : Type} (cfg : Settings) (acc : StubAccessors)
    (ops : DigitalStubOps D) (iPhiSec : Nat) (s : Stub D) (he : cfg.enableDigitize = true)
    (hf : cfg.firmwareType ≠ 1)
    (h : s.digitizedForHTinput_ = true → s.binRangeCurrent cfg acc) :
    (Stub.digitizeForHTinput cfg acc ops iPhiSec s).binRangeCurrent cfg acc := by
  have hne : (cfg.firmwareType != 1) = true := by simp [hf]
  unfold Stub.digitizeForHTinput
  simp only [he, hne, if_true]
  split_ifs with hc
  · rfl
  · apply h
    cases hh : s.digitizedForHTinput_
    · simp [hh] at hc
    · rfl

theorem reset_digitize_binRange {D : Type} (cfg : Settings) (acc : StubAccessors)
    (ops : DigitalStubOps D) (s : Stub D) (he : cfg.enableDigitize = true)
    (hf : cfg.firmwareType ≠ 1) (h : s.isRaw → s.binRangeCurrent cfg acc) :
    (Stub.reset_digitize cfg acc ops s).binRangeCurrent cfg acc := by
  have hne : (cfg.firmwareType != 1) = true := by simp [hf]
  unfold Stub.reset_digitize
  simp only [he, hne, if_true]
  split_ifs with hc
  · rfl
  · apply h
    simpa [Stub.isRaw] using hc

theorem runCalls_binRange {D : Type} (cfg : Settings) (acc : StubAccessors)
    (ops : DigitalStubOps D) (he : cfg.enableDigitize = true) (hf : cfg.firmwareType ≠ 1)
    (calls : List DigiCall) (s : Stub D)
    (h : s.isRaw ∨ s.digitizedForHTinput_ = true → s.binRangeCurrent cfg acc) :
    (runCalls cfg acc ops calls s).isRaw ∨ (runCalls cfg acc ops calls s).digitizedForHTinput_ = true →
      (runCalls cfg acc ops calls s).binRangeCurrent cfg acc := by
  induction calls generalizing s with
  | nil => exact h
  | cons c cs ih =>
    apply ih (c.apply cfg acc ops s)
    cases c with
    | forGP i =>
      obtain ⟨h1, h2⟩ := digitizeForGPinput_flags cfg ops i s he
      rintro (⟨hg, _⟩ | hh)
      · rw [DigiCall.apply, h1] at hg
        exact Bool.noConfusion hg
      · rw [DigiCall.apply, h2] at hh
        exact Bool.noConfusion hh
    | forHT i =>
      intro _
      exact digitizeForHTinput_binRange cfg acc ops i s he hf (fun hh => h (Or.inr hh))
    | reset =>
      intro _
      exact reset_digitize_binRange cfg acc ops s he hf (fun hr => h (Or.inl hr))

/-- C19 (refuted as stated): with 32 bins, `houghMinPt = 3`, digitisation
enabled and a firmware other than daisy-chain, `digitizeForGPinput(5)` turns the
bend 11/10 of a constructed stub into 1 and keeps the stored range `(15, 27)`,
while `calcQoverPtrange` gives `(14, 26)` for the new bend. -/
theorem digitizeForGPinput_leaves_stale_range :
    (binCfg 32 3).enableDigitize = true ∧ (binCfg 32 3).firmwareType ≠ 1 ∧
    (gridStub (binCfg 32 3) (11 / 10)).isRaw ∧
    (gridStub (binCfg 32 3) (11 / 10)).binRangeCurrent (binCfg 32 3) gridAcc ∧
    ¬ (runCalls (binCfg 32 3) gridAcc gridOps [DigiCall.forGP 5]
      (gridStub (binCfg 32 3) (11 / 10))).binRangeCurrent (binCfg 32 3) gridAcc := by
  refine ⟨rfl, by decide, ⟨rfl, rfl⟩, rfl, ?_⟩
  have hstored : ((runCalls (binCfg 32 3) gridAcc gridOps [DigiCall.forGP 5]
        (gridStub (binCfg 32 3) (11 / 10))).min_qOverPt_bin_,
      (runCalls (binCfg 32 3) gridAcc gridOps [DigiCall.forGP 5]
        (gridStub (binCfg 32 3) (11 / 10))).max_qOverPt_bin_) = (15, 27) := by
    with_unfolding_all rfl
  have hcalc : calcQoverPtrange (binCfg 32 3)
      (gridAcc.qOverPtOverBend (runCalls (binCfg 32 3) gridAcc gridOps [DigiCall.forGP 5]
        (gridStub (binCfg 32 3) (11 / 10))).toStubData)
      (runCalls (binCfg 32 3) gridAcc gridOps [DigiCall.forGP 5]
        (gridStub (binCfg 32 3) (11 / 10))).bend_
      (gridAcc.bendRes (runCalls (binCfg 32 3) gridAcc gridOps [DigiCall.forGP 5]
        (gridStub (binCfg 32 3) (11 / 10))).toStubData) = (14, 26) := by
    with_unfolding_all rfl
  unfold Stub.binRangeCurrent
  rw [hstored, hcalc]
  decide

/-- C19 (amended): with digitisation enabled and a firmware other than
daisy-chain, in every state reached from a freshly constructed stub by
`digitizeForGPinput`, `digitizeForHTinput` and `reset_digitize` in which the stub
is Raw or digitised for the HT, the stored bin range equals what
`calcQoverPtrange` computes from the current bend, bend resolution and conversion
factor. -/
theorem runCalls_binRange_current_unless_GP_only {D : Type} (cfg : Settings)
    (acc : StubAccessors) (ops : DigitalStubOps D) (he : cfg.enableDigitize = true)
    (hf : cfg.firmwareType ≠ 1) (calls : List DigiCall) (s : Stub D) (_hraw : s.isRaw)
    (hcur : s.binRangeCurrent cfg acc) :
    (runCalls cfg acc ops calls s).isRaw ∨ (runCalls cfg acc ops calls s).digitizedForHTinput_ = true →
      (runCalls cfg acc ops calls s).binRangeCurrent cfg acc :=
  runCalls_binRange cfg acc ops he hf calls s (fun _ => hcur)

/-- Witness of `runCalls_binRange_current_unless_GP_only`: a constructed stub of
bend 11/10 digitised for the GP in sector 5 and then for the HT in sector 5 is
digitised for the HT and its stored range is current. -/
theorem runCalls_binRange_current_unless_GP_only_witness :
    (binCfg 32 3).enableDigitize = true ∧ (binCfg 32 3).firmwareType ≠ 1 ∧
    (gridStub (binCfg 32 3) (11 / 10)).isRaw ∧
    (gridStub (binCfg 32 3) (11 / 10)).binRangeCurrent (binCfg 32 3) gridAcc ∧
    (runCalls (binCfg 32 3) gridAcc gridOps [DigiCall.forGP 5, DigiCall.forHT 5]
      (gridStub (binCfg 32 3) (11 / 10))).digitizedForHTinput_ = true ∧
    (runCalls (binCfg 32 3) gridAcc gridOps [DigiCall.forGP 5, DigiCall.forHT 5]
      (gridStub (binCfg 32 3) (11 / 10))).binRangeCurrent (binCfg 32 3) gridAcc :=
  have hHT : (runCalls (binCfg 32 3) gridAcc gridOps [DigiCall.forGP 5, DigiCall.forHT 5]
      (gridStub (binCfg 32 3) (11 / 10))).digitizedForHTinput_ = true := by
    with_unfolding_all rfl
  ⟨rfl, by decide, ⟨rfl, rfl⟩, rfl, hHT,
    runCalls_binRange_current_unless_GP_only (binCfg 32 3) gridAcc gridOps rfl (by decide)
      [DigiCall.forGP 5, DigiCall.forHT 5] (gridStub (binCfg 32 3) (11 / 10)) ⟨rfl, rfl⟩ rfl
      (Or.inr hHT)⟩

theorem digitizeForHTinput_both_flags {D : Type} (cfg : Settings) (acc : StubAccessors)
    (ops : DigitalStubOps D) (iPhiSec : Nat) (s : Stub D) (he : cfg.enableDigitize = true)
    (hok : s.digiStateOK) :
    (Stub.digitizeForHTinput cfg acc ops iPhiSec s).digitizedForGPinput_ = true ∧
      (Stub.digitizeForHTinput cfg acc ops iPhiSec s).digitizedForHTinput_ = true := by
  obtain ⟨h1, _⟩ := digitizeForGPinput_flags cfg ops iPhiSec s he
  unfold Stub.digitizeForHTinput
  rw [if_pos he]
  split_ifs with hc hf
  · refine ⟨?_, rfl⟩
    simpa [Stub.calcQoverPtrange, Stub.setRhoParameter] using h1
  · refine ⟨?_, rfl⟩
    simpa using h1
  · have hHT : s.digitizedForHTinput_ = true := by
      cases hh : s.digitizedForHTinput_
      · simp [hh] at hc
      · rfl
    rcases hok with ⟨_, h2⟩ | ⟨_, h2⟩ | ⟨h3, _⟩
    · rw [h2] at hHT; exact Bool.noConfusion hHT
    · rw [h2] at hHT; exact Bool.noConfusion hHT
    · exact ⟨h3, hHT⟩

/-- C21: with digitisation enabled, from every state reached from a freshly
constructed stub by any sequence of `digitizeForGPinput`, `digitizeForHTinput`
and `reset_digitize` calls, and for every sector, `digitizeForHTinput(iPhiSec)`
ends with `digitizedForGPinput_` and `digitizedForHTinput_` both true. -/
theorem digitizeForHTinput_reaches_both {D : Type} (cfg : Settings) (acc : StubAccessors)
    (ops : DigitalStubOps D) (he : cfg.enableDigitize = true) (calls : List DigiCall)
    (s : Stub D) (hraw : s.isRaw) (iPhiSec : Nat) :
    (Stub.digitizeForHTinput cfg acc ops iPhiSec
      (runCalls cfg acc ops calls s)).digitizedForGPinput_ = true ∧
    (Stub.digitizeForHTinput cfg acc ops iPhiSec
      (runCalls cfg acc ops calls s)).digitizedForHTinput_ = true := by
  have hok : (runCalls cfg acc ops calls s).digiStateOK :=
    runCalls_digiStateOK cfg acc ops calls s (Or.inl hraw)
  exact digitizeForHTinput_both_flags cfg acc ops iPhiSec _ he hok

/-- Witness of `digitizeForHTinput_reaches_both`: a constructed stub digitised
for the HT in sector 5 and then for the GP in sector 9 is in the GP-only state;
`digitizeForHTinput(5)` sets both flags. -/
theorem digitizeForHTinput_reaches_both_witness :
    (binCfg 32 3).enableDigitize = true ∧ (gridStub (binCfg 32 3) 1).isRaw ∧
    (runCalls (binCfg 32 3) gridAcc gridOps [DigiCall.forHT 5, DigiCall.forGP 9]
      (gridStub (binCfg 32 3) 1)).digitizedForHTinput_ = false ∧
    (Stub.digitizeForHTinput (binCfg 32 3) gridAcc gridOps 5
      (runCalls (binCfg 32 3) gridAcc gridOps [DigiCall.forHT 5, DigiCall.forGP 9]
        (gridStub (binCfg 32 3) 1))).digitizedForGPinput_ = true ∧
    (Stub.digitizeForHTinput (binCfg 32 3) gridAcc gridOps 5
      (runCalls (binCfg 32 3) gridAcc gridOps [DigiCall.forHT 5, DigiCall.forGP 9]
        (gridStub (binCfg 32 3) 1))).digitizedForHTinput_ = true :=
  ⟨rfl, ⟨rfl, rfl⟩, by with_unfolding_all rfl,
    digitizeForHTinput_reaches_both (binCfg 32 3) gridAcc gridOps rfl
      [DigiCall.forHT 5, DigiCall.forGP 9] (gridStub (binCfg 32 3) 1) ⟨rfl, rfl⟩ 5⟩

theorem runCalls_of_disabled {D : Type} (cfg : Settings) (acc : StubAccessors)
    (ops : DigitalStubOps D) (hoff : cfg.enableDigitize = false) (calls : List DigiCall)
    (s : Stub D) : runCalls cfg acc ops calls s = s := by
  induction calls generalizing s with
  | nil => rfl
  | cons c cs ih =>
    have hstep : c.apply cfg acc ops s = s := by
      cases c <;>
        simp [DigiCall.apply, Stub.digitizeForGPinput, Stub.digitizeForHTinput,
          Stub.reset_digitize, hoff]
    show runCalls cfg acc ops cs (c.apply cfg acc ops s) = s
    rw [hstep]
    exact ih s

/-- C23: when `enableDigitize` is false, `digitizeForGPinput`,
`digitizeForHTinput` and `reset_digitize` are the identity on the stub for every
sector and every state, so every sequence of such calls leaves the stub as it
was and a stub in the Raw state stays Raw. -/
theorem digitize_identity_when_disabled {D : Type} (cfg : Settings) (acc : StubAccessors)
    (ops : DigitalStubOps D) (hoff : cfg.enableDigitize = false) (iPhiSec : Nat) (s : Stub D) :
    Stub.digitizeForGPinput cfg ops iPhiSec s = s ∧
    Stub.digitizeForHTinput cfg acc ops iPhiSec s = s ∧
    Stub.reset_digitize cfg acc ops s = s ∧
    (∀ calls : List DigiCall, runCalls cfg acc ops calls s = s) ∧
    (s.isRaw → ∀ calls : List DigiCall, (runCalls cfg acc ops calls s).isRaw) := by
  refine ⟨?_, ?_, ?_, ?_, ?_⟩
  · simp [Stub.digitizeForGPinput, hoff]
  · simp [Stub.digitizeForHTinput, hoff]
  · simp [Stub.reset_digitize, hoff]
  · exact fun calls => runCalls_of_disabled cfg acc ops hoff calls s
  · intro hraw calls
    rw [runCalls_of_disabled cfg acc ops hoff calls s]
    exact hraw

/-- Witness of `digitize_identity_when_disabled`: with digitisation disabled, a
constructed stub is unchanged by `digitizeForHTinput(5)` and by the sequence
HT in sector 5, GP in sector 9, reset. -/
theorem digitize_identity_when_disabled_witness :
    ({ binCfg 32 3 with enableDigitize := false } : Settings).enableDigitize = false ∧
    Stub.digitizeForHTinput { binCfg 32 3 with enableDigitize := false } gridAcc gridOps 5
      (gridStub (binCfg 32 3) 1) = gridStub (binCfg 32 3) 1 ∧
    runCalls { binCfg 32 3 with enableDigitize := false } gridAcc gridOps
      [DigiCall.forHT 5, DigiCall.forGP 9, DigiCall.reset] (gridStub (binCfg 32 3) 1) =
        gridStub (binCfg 32 3) 1 :=
  have h := digitize_identity_when_disabled { binCfg 32 3 with enableDigitize := false } gridAcc
    gridOps rfl 5 (gridStub (binCfg 32 3) 1)
  ⟨rfl, h.2.1, h.2.2.2.1 [DigiCall.forHT 5, DigiCall.forGP 9, DigiCall.reset]⟩

/-! ## The reduced layer map -/

/-- C22: on the valid table `Stub::layerIdReduced` is the fixed map sending the
barrel layers 1 to 6 to 1, 2, 7, 5, 4, 3 and the endcap disks 1 to 5 to
3, 4, 5, 6, 7 for either endcap side; it does not depend on the side, is
injective on the six barrel layers and on the five disks, and its image on the
valid table is exactly the set 1 to 7. -/
theorem layerIdReduced_fixed_map :
    (∀ iSide iDisk : Nat,
      List.map (fun iLayer => layerIdReduced (encodeLayerId true iLayer iSide iDisk))
          [1, 2, 3, 4, 5, 6] =
        [Except.ok 1, Except.ok 2, Except.ok 7, Except.ok 5, Except.ok 4, Except.ok 3]) ∧
    (∀ iLayer iSide : Nat, iSide = 1 ∨ iSide = 2 →
      List.map (fun iDisk => layerIdReduced (encodeLayerId false iLayer iSide iDisk))
          [1, 2, 3, 4, 5] =
        [Except.ok 3, Except.ok 4, Except.ok 5, Except.ok 6, Except.ok 7]) ∧
    (∀ iDisk : Nat, 1 ≤ iDisk → iDisk ≤ 5 →
      layerIdReduced (encodeLayerId false 0 1 iDisk) =
        layerIdReduced (encodeLayerId false 0 2 iDisk)) ∧
    (∀ l₁ l₂ : Nat, 1 ≤ l₁ → l₁ ≤ 6 → 1 ≤ l₂ → l₂ ≤ 6 →
      layerIdReduced (encodeLayerId true l₁ 0 0) = layerIdReduced (encodeLayerId true l₂ 0 0) →
      l₁ = l₂) ∧
    (∀ iSide d₁ d₂ : Nat, iSide = 1 ∨ iSide = 2 → 1 ≤ d₁ → d₁ ≤ 5 → 1 ≤ d₂ → d₂ ≤ 5 →
      layerIdReduced (encodeLayerId false 0 iSide d₁) =
        layerIdReduced (encodeLayerId false 0 iSide d₂) →
      d₁ = d₂) ∧
    (∀ v : Nat, (1 ≤ v ∧ v ≤ 7) ↔
      ∃ layerId_, validLayerId layerId_ ∧ layerIdReduced layerId_ = Except.ok v) := by
  refine ⟨?_, ?_, ?_, ?_, ?_, ?_⟩
  · intro iSide iDisk
    simp [encodeLayerId, layerIdReduced]
  · rintro iLayer iSide (h | h) <;> subst h <;> simp [encodeLayerId, layerIdReduced]
  · intro iDisk h1 h5
    interval_cases iDisk <;> simp [encodeLayerId, layerIdReduced]
  · intro l₁ l₂ a1 a6 b1 b6 h
    interval_cases l₁ <;> interval_cases l₂ <;>
      simp [encodeLayerId, layerIdReduced] at h ⊢
  · rintro iSide d₁ d₂ (hs | hs) a1 a5 b1 b5 h <;> subst hs <;>
      interval_cases d₁ <;> interval_cases d₂ <;>
      simp [encodeLayerId, layerIdReduced] at h ⊢
  · intro v
    constructor
    · rintro ⟨h1, h7⟩
      interval_cases v
      · exact ⟨1, by decide, rfl⟩
      · exact ⟨2, by decide, rfl⟩
      · exact ⟨6, by decide, rfl⟩
      · exact ⟨5, by decide, rfl⟩
      · exact ⟨4, by decide, rfl⟩
      · exact ⟨14, by decide, rfl⟩
      · exact ⟨3, by decide, rfl⟩
    · rintro ⟨layerId_, hvalid, hred⟩
      have hle : layerId_ ≤ 25 := by unfold validLayerId at hvalid; omega
      interval_cases layerId_ <;> simp [validLayerId] at hvalid <;>
        simp [layerIdReduced] at hred <;> omega

end TMTT
